import Mathlib

/-!
Shallow embedding of the crowd-interactive pong server.

The repository contains two near-identical game variants:
* `src/server.js` — the fixed-team variant (players are split into two teams
  by parity of their assigned number; each team's votes drive one paddle);
  embedded in namespace `Server`;
* `src/unnamed/part_000` — the ball-tracking variant (every player's vote is
  applied to both paddles, and only the paddle on the ball's side of the
  canvas actually moves while the other eases toward center); embedded in
  namespace `Track`.

Positions and velocities are rationals (the JavaScript arithmetic used here
is exact on the values involved).  Vote tallies are naturals:
`Math.max(0, v - 1)` on a non-negative integer is exactly truncated
subtraction.  The `Map` of players keyed by socket id is embedded as an
association list; since each connection joins at most once and socket ids
are unique per connection, the model identifies a player's key with the
player's assigned number (allocated from `nextPlayerNumber` exactly as in
the source).  `Math.random()` draws are passed in as explicit parameters.
`setTimeout(cb, 1500)` calls — whose handles the source never stores nor
cancels — are embedded as a counter `pendingResets` of outstanding deferred
round-resets; the event `fireReset` models one of them firing.
-/

/-- Clamp a value, `Math.max(lo, Math.min(hi, v))`. -/
def clamp (lo hi v : ℚ) : ℚ := max lo (min hi v)

/-- A well-formed vote direction. -/
inductive Dir
  | up
  | down
  deriving DecidableEq, Repr

/-- A value received in the `direction` field of a `player:input` event.
`other tag` stands for an arbitrary truthy JavaScript value different from
the strings `"up"` and `"down"` (e.g. `"left"`). -/
inductive InputVal
  | up
  | down
  | other (tag : ℕ)
  deriving DecidableEq, Repr

/-- The `direction` payload corresponding to a well-formed vote. -/
def Dir.toInput : Dir → InputVal
  | .up => .up
  | .down => .down

/-- Which side a paddle / team is on. -/
inductive Side
  | left
  | right
  deriving DecidableEq, Repr

/-- Match status, `waiting | playing | paused | finished`. -/
inductive Status
  | waiting
  | playing
  | paused
  | finished
  deriving DecidableEq, Repr

section AssocList

variable {α : Type}

/-- `Map.get`: first entry with the given key. -/
def findKey (k : ℕ) : List (ℕ × α) → Option α
  | [] => none
  | q :: l => if q.1 = k then some q.2 else findKey k l

/-- In-place mutation of the entry with the given key (JavaScript mutates
the object stored in the `Map`). -/
def updateKey (k : ℕ) (f : α → α) (l : List (ℕ × α)) : List (ℕ × α) :=
  l.map fun q => if q.1 = k then (q.1, f q.2) else q

/-- `Map.delete`. -/
def eraseKey (k : ℕ) (l : List (ℕ × α)) : List (ℕ × α) :=
  l.filter fun q => q.1 ≠ k

/-- Number of entries whose value satisfies `P`. -/
def countP (P : α → Bool) (l : List (ℕ × α)) : ℕ :=
  (l.filter fun q => P q.2).length

theorem findKey_mem {k : ℕ} {a : α} :
    ∀ {l : List (ℕ × α)}, findKey k l = some a → (k, a) ∈ l := by
  intro l
  induction l with
  | nil => intro h; simp [findKey] at h
  | cons q l ih =>
    intro h
    rw [findKey] at h
    by_cases hq : q.1 = k
    · rw [if_pos hq] at h
      have hqa : q = (k, a) := by
        cases q
        simp only [Option.some.injEq] at h
        simp_all
      rw [hqa]
      exact List.mem_cons_self _ _
    · rw [if_neg hq] at h
      exact List.mem_cons_of_mem _ (ih h)

theorem keys_updateKey (k : ℕ) (f : α → α) (l : List (ℕ × α)) :
    (updateKey k f l).map Prod.fst = l.map Prod.fst := by
  induction l with
  | nil => rfl
  | cons q l ih =>
    simp only [updateKey, List.map_cons] at *
    by_cases hq : q.1 = k
    · simp [hq, ih]
    · simp [hq, ih]

theorem updateKey_of_not_mem {k : ℕ} {l : List (ℕ × α)}
    (h : k ∉ l.map Prod.fst) (f : α → α) : updateKey k f l = l := by
  induction l with
  | nil => rfl
  | cons q l ih =>
    simp only [List.map_cons, List.mem_cons] at h
    push_neg at h
    simp only [updateKey, List.map_cons]
    rw [if_neg (by simpa using (Ne.symm h.1))]
    simpa [updateKey] using ih h.2

theorem countP_append (P : α → Bool) (l : List (ℕ × α)) (k : ℕ) (a : α) :
    countP P (l ++ [(k, a)]) = countP P l + (if P a then 1 else 0) := by
  simp only [countP, List.filter_append]
  by_cases h : P a
  · simp [h]
  · simp [h]

theorem countP_updateKey (P : α → Bool) (f : α → α) :
    ∀ {l : List (ℕ × α)} {k : ℕ} {a : α},
      (l.map Prod.fst).Nodup → (k, a) ∈ l →
      countP P (updateKey k f l) + (if P a then 1 else 0) =
        countP P l + (if P (f a) then 1 else 0) := by
  intro l
  induction l with
  | nil => intro k a _ hm; simp at hm
  | cons q l ih =>
    intro k a hnd hm
    simp only [List.map_cons, List.nodup_cons] at hnd
    rcases List.mem_cons.mp hm with h | h
    · subst h
      simp only [updateKey, List.map_cons, if_pos rfl]
      have hrest : updateKey k f l = l :=
        updateKey_of_not_mem (by simpa using hnd.1) f
      simp only [updateKey] at hrest
      rw [hrest]
      simp only [countP, List.filter_cons]
      by_cases h1 : P a <;> by_cases h2 : P (f a) <;>
        simp [h1, h2, Nat.add_comm, Nat.add_assoc, Nat.add_left_comm]
    · have hq : q.1 ≠ k := by
        intro hqk
        exact hnd.1 (hqk ▸ (List.mem_map.mpr ⟨(k, a), h, rfl⟩))
      simp only [updateKey, List.map_cons, if_neg hq]
      have := ih hnd.2 h
      simp only [updateKey] at this
      simp only [countP, List.filter_cons] at *
      by_cases h1 : P q.2 <;> simp [h1] <;> omega

theorem countP_cons (P : α → Bool) (q : ℕ × α) (l : List (ℕ × α)) :
    countP P (q :: l) = (if P q.2 then 1 else 0) + countP P l := by
  simp only [countP, List.filter_cons]
  by_cases h : P q.2 <;> simp [h, Nat.add_comm]

theorem eraseKey_cons (k : ℕ) (q : ℕ × α) (l : List (ℕ × α)) :
    eraseKey k (q :: l) =
      if q.1 = k then eraseKey k l else q :: eraseKey k l := by
  simp only [eraseKey, List.filter_cons]
  by_cases h : q.1 = k <;> simp [h]

theorem eraseKey_of_not_mem {k : ℕ} {l : List (ℕ × α)}
    (h : k ∉ l.map Prod.fst) : eraseKey k l = l := by
  apply List.filter_eq_self.mpr
  intro q hq
  have : q.1 ≠ k := by
    intro hqk
    exact h (hqk ▸ (List.mem_map.mpr ⟨q, hq, rfl⟩))
  simpa using this

theorem countP_eraseKey (P : α → Bool) :
    ∀ {l : List (ℕ × α)} {k : ℕ} {a : α},
      (l.map Prod.fst).Nodup → (k, a) ∈ l →
      countP P (eraseKey k l) + (if P a then 1 else 0) = countP P l := by
  intro l
  induction l with
  | nil => intro k a _ hm; simp at hm
  | cons q l ih =>
    intro k a hnd hm
    simp only [List.map_cons, List.nodup_cons] at hnd
    rcases List.mem_cons.mp hm with h | h
    · subst h
      rw [eraseKey_cons, if_pos rfl,
        eraseKey_of_not_mem (by simpa using hnd.1), countP_cons]
      by_cases h1 : P a <;> simp [h1, Nat.add_comm]
    · have hq : q.1 ≠ k := by
        intro hqk
        exact hnd.1 (hqk ▸ (List.mem_map.mpr ⟨(k, a), h, rfl⟩))
      rw [eraseKey_cons, if_neg hq, countP_cons, countP_cons]
      have := ih hnd.2 h
      omega

theorem keys_eraseKey_sublist (k : ℕ) (l : List (ℕ × α)) :
    ((eraseKey k l).map Prod.fst).Sublist (l.map Prod.fst) :=
  (List.filter_sublist l).map Prod.fst

theorem mem_eraseKey {k : ℕ} {l : List (ℕ × α)} {q : ℕ × α}
    (h : q ∈ eraseKey k l) : q ∈ l :=
  (List.filter_sublist l).subset h

theorem mem_updateKey {k : ℕ} {f : α → α} {l : List (ℕ × α)} {q : ℕ × α}
    (h : q ∈ updateKey k f l) : ∃ q₀ ∈ l, q.1 = q₀.1 := by
  rcases List.mem_map.mp h with ⟨q₀, hq₀, hEq⟩
  refine ⟨q₀, hq₀, ?_⟩
  by_cases hk : q₀.1 = k
  · rw [if_pos hk] at hEq; rw [← hEq]
  · rw [if_neg hk] at hEq; rw [← hEq]

theorem findKey_updateKey_self (k : ℕ) (f : α → α) :
    ∀ (l : List (ℕ × α)), findKey k (updateKey k f l) = (findKey k l).map f := by
  intro l
  induction l with
  | nil => rfl
  | cons q l ih =>
    simp only [updateKey, List.map_cons, findKey]
    by_cases hq : q.1 = k
    · simp [findKey, hq]
    · simp only [if_neg hq, findKey, if_neg hq]
      simpa [updateKey] using ih

end AssocList

/-- Vote-ratio-to-displacement formula shared by both variants
(`calculatePaddleMovement` in the sources, parametrized by the variant's
`PADDLE_SPEED` constant; `0.5` in the source is the exact rational `1/2`). -/
def calcPaddleMovement (paddleSpeed : ℚ) (upVotes downVotes : ℕ) : ℚ :=
  let totalVotes : ℕ := upVotes + downVotes
  if totalVotes = 0 then 0
  else
    let upRatio : ℚ := (upVotes : ℚ) / (totalVotes : ℚ)
    let downRatio : ℚ := (downVotes : ℚ) / (totalVotes : ℚ)
    if upRatio > downRatio then -paddleSpeed * (upRatio - 1/2) * 2
    else if downRatio > upRatio then paddleSpeed * (downRatio - 1/2) * 2
    else 0

namespace Server

def WINNING_SCORE : ℕ := 7
def INITIAL_BALL_SPEED : ℚ := 5
def SPEED_INCREMENT : ℚ := 1/2
def PADDLE_SPEED : ℚ := 8
def CANVAS_WIDTH : ℚ := 1200
def CANVAS_HEIGHT : ℚ := 600
def PADDLE_HEIGHT : ℚ := 120
def PADDLE_WIDTH : ℚ := 15
def BALL_SIZE : ℚ := 15
def maxRecentInputs : ℕ := 20

structure Ball where
  x : ℚ
  y : ℚ
  vx : ℚ
  vy : ℚ
  deriving DecidableEq, Repr

structure Paddle where
  y : ℚ
  upVotes : ℕ
  downVotes : ℕ
  deriving DecidableEq, Repr

structure Score where
  left : ℕ
  right : ℕ
  deriving DecidableEq, Repr

/-- Entry of `gameState.players` (socket id ↦ player record); `inputTime`
starts out `null`. -/
structure Player where
  number : ℕ
  team : Side
  lastInput : Option InputVal
  inputTime : Option ℕ
  deriving DecidableEq, Repr

structure RecentInput where
  number : ℕ
  direction : InputVal
  team : Side
  timestamp : ℕ
  deriving DecidableEq, Repr

/-- The mutable `gameState` of `src/server.js`.  `pendingResets` counts the
`setTimeout` round-reset callbacks that have been scheduled but have not yet
fired; the source stores no handle to them and never cancels one. -/
structure GameState where
  status : Status
  ball : Ball
  leftPaddle : Paddle
  rightPaddle : Paddle
  score : Score
  round : ℕ
  ballSpeed : ℚ
  players : List (ℕ × Player)
  nextPlayerNumber : ℕ
  recentInputs : List RecentInput
  pendingResets : ℕ
  deriving DecidableEq, Repr

/-- Boot-time `gameState`; `coin` is the `Math.random() > 0.5` draw for the
initial vertical velocity sign. -/
def initialState (coin : Bool) : GameState where
  status := .waiting
  ball := { x := CANVAS_WIDTH / 2, y := CANVAS_HEIGHT / 2,
            vx := INITIAL_BALL_SPEED,
            vy := INITIAL_BALL_SPEED * (if coin then 1 else -1) }
  leftPaddle := { y := CANVAS_HEIGHT / 2 - PADDLE_HEIGHT / 2, upVotes := 0, downVotes := 0 }
  rightPaddle := { y := CANVAS_HEIGHT / 2 - PADDLE_HEIGHT / 2, upVotes := 0, downVotes := 0 }
  score := { left := 0, right := 0 }
  round := 1
  ballSpeed := INITIAL_BALL_SPEED
  players := []
  nextPlayerNumber := 1
  recentInputs := []
  pendingResets := 0

/-- `resetBall(direction)`; `r ∈ [0,1]` is the `Math.random()` draw for the
vertical velocity. -/
def resetBall (r : ℚ) (direction : ℚ) (s : GameState) : GameState :=
  { s with ball := { x := CANVAS_WIDTH / 2, y := CANVAS_HEIGHT / 2,
                     vx := s.ballSpeed * direction,
                     vy := s.ballSpeed * (r * 2 - 1) } }

/-- `resetRound()`: re-center paddles, zero the four tallies, then relaunch
the ball in direction `-1` (leftward) when the left side leads, else `+1`. -/
def resetRound (r : ℚ) (s : GameState) : GameState :=
  let s1 := { s with
    leftPaddle := { y := CANVAS_HEIGHT / 2 - PADDLE_HEIGHT / 2,
                    upVotes := 0, downVotes := 0 },
    rightPaddle := { y := CANVAS_HEIGHT / 2 - PADDLE_HEIGHT / 2,
                     upVotes := 0, downVotes := 0 } }
  let lastScorer : ℚ := if s1.score.left > s1.score.right then -1 else 1
  resetBall r lastScorer s1

/-- `resetGame()`; `r1` is the `Math.random()` draw inside the nested
`resetRound`, `r2` and `coin` are the draws of the final `resetBall`. -/
def resetGame (r1 r2 : ℚ) (coin : Bool) (s : GameState) : GameState :=
  let s1 := { s with
    status := Status.waiting,
    score := { left := 0, right := 0 },
    round := 1,
    ballSpeed := INITIAL_BALL_SPEED,
    recentInputs := ([] : List RecentInput) }
  resetBall r2 (if coin then 1 else -1) (resetRound r1 s1)

def calculatePaddleMovement (p : Paddle) : ℚ :=
  calcPaddleMovement PADDLE_SPEED p.upVotes p.downVotes

/-- One iteration of the 60 Hz `setInterval` body in `startGameLoop`. -/
def tick (s : GameState) : GameState :=
  if s.status ≠ Status.playing then s
  else
    let leftMove := calculatePaddleMovement s.leftPaddle
    let rightMove := calculatePaddleMovement s.rightPaddle
    let lY := clamp 0 (CANVAS_HEIGHT - PADDLE_HEIGHT) (s.leftPaddle.y + leftMove)
    let rY := clamp 0 (CANVAS_HEIGHT - PADDLE_HEIGHT) (s.rightPaddle.y + rightMove)
    let bx := s.ball.x + s.ball.vx
    let by0 := s.ball.y + s.ball.vy
    let wallHit : Prop := by0 ≤ 0 ∨ by0 ≥ CANVAS_HEIGHT - BALL_SIZE
    let vy1 := if wallHit then -s.ball.vy else s.ball.vy
    let by1 := if wallHit then clamp 0 (CANVAS_HEIGHT - BALL_SIZE) by0 else by0
    let leftHit : Prop := bx ≤ PADDLE_WIDTH + 20 ∧ by1 + BALL_SIZE ≥ lY ∧
      by1 ≤ lY + PADDLE_HEIGHT ∧ s.ball.vx < 0
    let vx1 := if leftHit then -s.ball.vx else s.ball.vx
    let vy2 := if leftHit then ((by1 - lY) / PADDLE_HEIGHT - 1/2) * s.ballSpeed * 2 else vy1
    let rightHit : Prop := bx ≥ CANVAS_WIDTH - PADDLE_WIDTH - 20 - BALL_SIZE ∧
      by1 + BALL_SIZE ≥ rY ∧ by1 ≤ rY + PADDLE_HEIGHT ∧ vx1 > 0
    let vx2 := if rightHit then -vx1 else vx1
    let vy3 := if rightHit then ((by1 - rY) / PADDLE_HEIGHT - 1/2) * s.ballSpeed * 2 else vy2
    let score1 : Score :=
      if bx ≤ 0 then { s.score with right := s.score.right + 1 }
      else if bx ≥ CANVAS_WIDTH then { s.score with left := s.score.left + 1 }
      else s.score
    let scored : Prop := bx ≤ 0 ∨ (¬ bx ≤ 0 ∧ bx ≥ CANVAS_WIDTH)
    let round1 := if scored then s.round + 1 else s.round
    let ballSpeed1 :=
      if scored then INITIAL_BALL_SPEED + ((round1 : ℚ) - 1) * SPEED_INCREMENT
      else s.ballSpeed
    let win : Prop := WINNING_SCORE ≤ score1.left ∨ WINNING_SCORE ≤ score1.right
    let status1 := if scored ∧ win then Status.finished else s.status
    let pending1 := if scored ∧ ¬ win then s.pendingResets + 1 else s.pendingResets
    { s with
      leftPaddle := { s.leftPaddle with y := lY },
      rightPaddle := { s.rightPaddle with y := rY },
      ball := { x := bx, y := by1, vx := vx2, vy := vy3 },
      score := score1, round := round1, ballSpeed := ballSpeed1,
      status := status1, pendingResets := pending1 }

/-- One pending `setTimeout` round-reset callback fires (runs `resetRound`
unconditionally — the callback contains no status check). -/
def fireReset (r : ℚ) (s : GameState) : GameState :=
  if s.pendingResets = 0 then s
  else resetRound r { s with pendingResets := s.pendingResets - 1 }

/-- `player:join`: allocate the next number, team by parity (even = left),
record with no active vote.  The map key is the player's number (socket ids
are fresh per connection, see the module docstring). -/
def playerJoin (s : GameState) : GameState :=
  let n := s.nextPlayerNumber
  let team := if n % 2 = 0 then Side.left else Side.right
  { s with
    players := s.players ++
      [(n, { number := n, team := team, lastInput := none, inputTime := none })],
    nextPlayerNumber := n + 1 }

/-- Retract a previous vote from a paddle's tallies
(`Math.max(0, v - 1)` = truncated subtraction). -/
def retract (prevInput : Option InputVal) (pd : Paddle) : Paddle :=
  let pd1 := if prevInput = some InputVal.up then
    { pd with upVotes := pd.upVotes - 1 } else pd
  if prevInput = some InputVal.down then
    { pd1 with downVotes := pd1.downVotes - 1 } else pd1

/-- Add a new vote to a paddle's tallies. -/
def addVote (direction : InputVal) (pd : Paddle) : Paddle :=
  let pd1 := if direction = InputVal.up then
    { pd with upVotes := pd.upVotes + 1 } else pd
  if direction = InputVal.down then
    { pd1 with downVotes := pd1.downVotes + 1 } else pd1

/-- `player:input` handler: no-op for an unknown participant; otherwise
record the direction (whatever it is), retract the previous vote from the
team's paddle, add the new vote if it is `up`/`down`, and push the event
onto the bounded recent-input log. -/
def playerInput (k : ℕ) (direction : InputVal) (now : ℕ) (s : GameState) : GameState :=
  match findKey k s.players with
  | none => s
  | some player =>
    let prevInput := player.lastInput
    let players1 := updateKey k
      (fun p => { p with lastInput := some direction, inputTime := some now }) s.players
    let s1 :=
      match player.team with
      | Side.left =>
        { s with players := players1,
                 leftPaddle := addVote direction (retract prevInput s.leftPaddle) }
      | Side.right =>
        { s with players := players1,
                 rightPaddle := addVote direction (retract prevInput s.rightPaddle) }
    let entry : RecentInput :=
      { number := player.number, direction := direction,
        team := player.team, timestamp := now }
    let ri := entry :: s1.recentInputs
    { s1 with recentInputs := if maxRecentInputs < ri.length then ri.dropLast else ri }

/-- `player:release` handler.  The source guard is `!player.lastInput`;
`other` models truthy non-`up`/`down` values, so only `null` is falsy here. -/
def playerRelease (k : ℕ) (s : GameState) : GameState :=
  match findKey k s.players with
  | none => s
  | some player =>
    match player.lastInput with
    | none => s
    | some _ =>
      let players1 := updateKey k (fun p => { p with lastInput := none }) s.players
      match player.team with
      | Side.left =>
        { s with players := players1,
                 leftPaddle := retract player.lastInput s.leftPaddle }
      | Side.right =>
        { s with players := players1,
                 rightPaddle := retract player.lastInput s.rightPaddle }

/-- `disconnect` handler: retract any active vote, delete the record. -/
def disconnect (k : ℕ) (s : GameState) : GameState :=
  match findKey k s.players with
  | none => s
  | some player =>
    let players1 := eraseKey k s.players
    match player.team with
    | Side.left =>
      { s with players := players1,
               leftPaddle := retract player.lastInput s.leftPaddle }
    | Side.right =>
      { s with players := players1,
               rightPaddle := retract player.lastInput s.rightPaddle }

/-- `admin:start` handler (restarting the interval timer clears the old
interval, not the pending `setTimeout`s, so `pendingResets` is untouched). -/
def adminStart (r1 r2 : ℚ) (coin : Bool) (s : GameState) : GameState :=
  if s.status = Status.waiting ∨ s.status = Status.finished then
    { resetGame r1 r2 coin s with status := Status.playing }
  else s

def adminPause (s : GameState) : GameState :=
  if s.status = Status.playing then { s with status := Status.paused } else s

def adminResume (s : GameState) : GameState :=
  if s.status = Status.paused then { s with status := Status.playing } else s

def adminReset (r1 r2 : ℚ) (coin : Bool) (s : GameState) : GameState :=
  resetGame r1 r2 coin s

def adminResetPlayers (s : GameState) : GameState :=
  { s with
    players := [],
    nextPlayerNumber := 1,
    leftPaddle := { s.leftPaddle with upVotes := 0, downVotes := 0 },
    rightPaddle := { s.rightPaddle with upVotes := 0, downVotes := 0 },
    recentInputs := [] }

/-- Every event that can mutate the game state between two points in time:
interval ticks, deferred round-reset callbacks firing, socket events and
admin commands. -/
inductive Event
  | tick
  | fireReset (r : ℚ)
  | join
  | input (k : ℕ) (direction : InputVal) (now : ℕ)
  | release (k : ℕ)
  | disconnect (k : ℕ)
  | pause
  | resume
  | start (r1 r2 : ℚ) (coin : Bool)
  | reset (r1 r2 : ℚ) (coin : Bool)
  | resetPlayers

def step : Event → GameState → GameState
  | .tick => tick
  | .fireReset r => fireReset r
  | .join => playerJoin
  | .input k d now => playerInput k d now
  | .release k => playerRelease k
  | .disconnect k => disconnect k
  | .pause => adminPause
  | .resume => adminResume
  | .start r1 r2 coin => adminStart r1 r2 coin
  | .reset r1 r2 coin => adminReset r1 r2 coin
  | .resetPlayers => adminResetPlayers

/-- Ledger operations of the vote-ledger claims: join, cast a well-formed
vote, release, remove (disconnect). -/
inductive Op
  | join
  | cast (k : ℕ) (d : Dir) (now : ℕ)
  | release (k : ℕ)
  | remove (k : ℕ)

def applyOp (s : GameState) : Op → GameState
  | .join => playerJoin s
  | .cast k d now => playerInput k d.toInput now s
  | .release k => playerRelease k s
  | .remove k => disconnect k s

def run (ops : List Op) (s : GameState) : GameState := ops.foldl applyOp s

/-- Does this participant's currently held direction contribute one vote to
the `t` paddle's `d` tally (fixed-team topology: own team's paddle only)? -/
def contributes (t : Side) (d : Dir) (p : Player) : Bool :=
  decide (p.team = t ∧ p.lastInput = some d.toInput)

/-- The four tallies, `(left up, left down, right up, right down)`. -/
def tallies (s : GameState) : ℕ × ℕ × ℕ × ℕ :=
  (s.leftPaddle.upVotes, s.leftPaddle.downVotes,
   s.rightPaddle.upVotes, s.rightPaddle.downVotes)

/-- Ledger invariant: distinct keys, keys below the allocation counter, and
each tally equals the number of present participants holding the matching
direction on the matching team. -/
structure Inv (s : GameState) : Prop where
  nodup : (s.players.map Prod.fst).Nodup
  fresh : ∀ q ∈ s.players, q.1 < s.nextPlayerNumber
  lu : s.leftPaddle.upVotes = countP (contributes Side.left Dir.up) s.players
  ld : s.leftPaddle.downVotes = countP (contributes Side.left Dir.down) s.players
  ru : s.rightPaddle.upVotes = countP (contributes Side.right Dir.up) s.players
  rd : s.rightPaddle.downVotes = countP (contributes Side.right Dir.down) s.players

end Server

namespace Track

def WINNING_SCORE : ℕ := 7
def INITIAL_BALL_SPEED : ℚ := 3
def SPEED_INCREMENT : ℚ := 0
def PADDLE_SPEED : ℚ := 6
def CANVAS_WIDTH : ℚ := 1200
def CANVAS_HEIGHT : ℚ := 600
def PADDLE_HEIGHT : ℚ := 120
def PADDLE_WIDTH : ℚ := 15
def BALL_SIZE : ℚ := 15
def maxRecentInputs : ℕ := 30

structure Ball where
  x : ℚ
  y : ℚ
  vx : ℚ
  vy : ℚ
  deriving DecidableEq, Repr

structure Paddle where
  y : ℚ
  upVotes : ℕ
  downVotes : ℕ
  deriving DecidableEq, Repr

structure Score where
  left : ℕ
  right : ℕ
  deriving DecidableEq, Repr

/-- Entry of `gameState.players` in the ball-tracking variant (no team). -/
structure Player where
  number : ℕ
  lastInput : Option InputVal
  inputTime : Option ℕ
  deriving DecidableEq, Repr

structure RecentInput where
  number : ℕ
  direction : InputVal
  timestamp : ℕ
  deriving DecidableEq, Repr

/-- The mutable `gameState` of `src/unnamed/part_000` (no `round` counter;
`activePaddle` tracks which side of the canvas the ball is on). -/
structure GameState where
  status : Status
  ball : Ball
  leftPaddle : Paddle
  rightPaddle : Paddle
  score : Score
  ballSpeed : ℚ
  activePaddle : Side
  players : List (ℕ × Player)
  nextPlayerNumber : ℕ
  recentInputs : List RecentInput
  pendingResets : ℕ
  deriving DecidableEq, Repr

def initialState (coin : Bool) : GameState where
  status := .waiting
  ball := { x := CANVAS_WIDTH / 2, y := CANVAS_HEIGHT / 2,
            vx := INITIAL_BALL_SPEED,
            vy := INITIAL_BALL_SPEED * (if coin then 1 else -1) }
  leftPaddle := { y := CANVAS_HEIGHT / 2 - PADDLE_HEIGHT / 2, upVotes := 0, downVotes := 0 }
  rightPaddle := { y := CANVAS_HEIGHT / 2 - PADDLE_HEIGHT / 2, upVotes := 0, downVotes := 0 }
  score := { left := 0, right := 0 }
  ballSpeed := INITIAL_BALL_SPEED
  activePaddle := Side.right
  players := []
  nextPlayerNumber := 1
  recentInputs := []
  pendingResets := 0

def resetBall (r : ℚ) (direction : ℚ) (s : GameState) : GameState :=
  { s with ball := { x := CANVAS_WIDTH / 2, y := CANVAS_HEIGHT / 2,
                     vx := s.ballSpeed * direction,
                     vy := s.ballSpeed * (r * 2 - 1) } }

def resetRound (r : ℚ) (s : GameState) : GameState :=
  let s1 := { s with
    leftPaddle := { y := CANVAS_HEIGHT / 2 - PADDLE_HEIGHT / 2,
                    upVotes := 0, downVotes := 0 },
    rightPaddle := { y := CANVAS_HEIGHT / 2 - PADDLE_HEIGHT / 2,
                     upVotes := 0, downVotes := 0 } }
  let lastScorer : ℚ := if s1.score.left > s1.score.right then -1 else 1
  resetBall r lastScorer s1

def resetGame (r1 r2 : ℚ) (coin : Bool) (s : GameState) : GameState :=
  let s1 := { s with
    status := Status.waiting,
    score := { left := 0, right := 0 },
    ballSpeed := INITIAL_BALL_SPEED,
    recentInputs := ([] : List RecentInput) }
  resetBall r2 (if coin then 1 else -1) (resetRound r1 s1)

def calculatePaddleMovement (p : Paddle) : ℚ :=
  calcPaddleMovement PADDLE_SPEED p.upVotes p.downVotes

/-- One iteration of the 60 Hz `setInterval` body: only the paddle on the
ball's side of the canvas moves from votes; the other paddle moves 2% of
its remaining distance toward center (`* 0.02` in the source). -/
def tick (s : GameState) : GameState :=
  if s.status ≠ Status.playing then s
  else
    let active := if s.ball.x < CANVAS_WIDTH / 2 then Side.left else Side.right
    let centerY := CANVAS_HEIGHT / 2 - PADDLE_HEIGHT / 2
    let lY0 :=
      if active = Side.left then s.leftPaddle.y + calculatePaddleMovement s.leftPaddle
      else s.leftPaddle.y + (centerY - s.leftPaddle.y) * (2/100)
    let rY0 :=
      if active = Side.left then s.rightPaddle.y + (centerY - s.rightPaddle.y) * (2/100)
      else s.rightPaddle.y + calculatePaddleMovement s.rightPaddle
    let lY := clamp 0 (CANVAS_HEIGHT - PADDLE_HEIGHT) lY0
    let rY := clamp 0 (CANVAS_HEIGHT - PADDLE_HEIGHT) rY0
    let bx := s.ball.x + s.ball.vx
    let by0 := s.ball.y + s.ball.vy
    let wallHit : Prop := by0 ≤ 0 ∨ by0 ≥ CANVAS_HEIGHT - BALL_SIZE
    let vy1 := if wallHit then -s.ball.vy else s.ball.vy
    let by1 := if wallHit then clamp 0 (CANVAS_HEIGHT - BALL_SIZE) by0 else by0
    let leftHit : Prop := bx ≤ PADDLE_WIDTH + 20 ∧ by1 + BALL_SIZE ≥ lY ∧
      by1 ≤ lY + PADDLE_HEIGHT ∧ s.ball.vx < 0
    let vx1 := if leftHit then -s.ball.vx else s.ball.vx
    let vy2 := if leftHit then ((by1 - lY) / PADDLE_HEIGHT - 1/2) * s.ballSpeed * 2 else vy1
    let rightHit : Prop := bx ≥ CANVAS_WIDTH - PADDLE_WIDTH - 20 - BALL_SIZE ∧
      by1 + BALL_SIZE ≥ rY ∧ by1 ≤ rY + PADDLE_HEIGHT ∧ vx1 > 0
    let vx2 := if rightHit then -vx1 else vx1
    let vy3 := if rightHit then ((by1 - rY) / PADDLE_HEIGHT - 1/2) * s.ballSpeed * 2 else vy2
    let score1 : Score :=
      if bx ≤ 0 then { s.score with right := s.score.right + 1 }
      else if bx ≥ CANVAS_WIDTH then { s.score with left := s.score.left + 1 }
      else s.score
    let scored : Prop := bx ≤ 0 ∨ (¬ bx ≤ 0 ∧ bx ≥ CANVAS_WIDTH)
    let win : Prop := WINNING_SCORE ≤ score1.left ∨ WINNING_SCORE ≤ score1.right
    let status1 := if scored ∧ win then Status.finished else s.status
    let pending1 := if scored ∧ ¬ win then s.pendingResets + 1 else s.pendingResets
    { s with
      activePaddle := active,
      leftPaddle := { s.leftPaddle with y := lY },
      rightPaddle := { s.rightPaddle with y := rY },
      ball := { x := bx, y := by1, vx := vx2, vy := vy3 },
      score := score1,
      status := status1, pendingResets := pending1 }

def fireReset (r : ℚ) (s : GameState) : GameState :=
  if s.pendingResets = 0 then s
  else resetRound r { s with pendingResets := s.pendingResets - 1 }

def playerJoin (s : GameState) : GameState :=
  let n := s.nextPlayerNumber
  { s with
    players := s.players ++ [(n, { number := n, lastInput := none, inputTime := none })],
    nextPlayerNumber := n + 1 }

def retract (prevInput : Option InputVal) (pd : Paddle) : Paddle :=
  let pd1 := if prevInput = some InputVal.up then
    { pd with upVotes := pd.upVotes - 1 } else pd
  if prevInput = some InputVal.down then
    { pd1 with downVotes := pd1.downVotes - 1 } else pd1

def addVote (direction : InputVal) (pd : Paddle) : Paddle :=
  let pd1 := if direction = InputVal.up then
    { pd with upVotes := pd.upVotes + 1 } else pd
  if direction = InputVal.down then
    { pd1 with downVotes := pd1.downVotes + 1 } else pd1

/-- `player:input` handler: every participant's vote is applied to BOTH
paddles. -/
def playerInput (k : ℕ) (direction : InputVal) (now : ℕ) (s : GameState) : GameState :=
  match findKey k s.players with
  | none => s
  | some player =>
    let prevInput := player.lastInput
    let players1 := updateKey k
      (fun p => { p with lastInput := some direction, inputTime := some now }) s.players
    let s1 : GameState :=
      { s with
        players := players1,
        leftPaddle := addVote direction (retract prevInput s.leftPaddle),
        rightPaddle := addVote direction (retract prevInput s.rightPaddle) }
    let entry : RecentInput :=
      { number := player.number, direction := direction, timestamp := now }
    let ri := entry :: s1.recentInputs
    { s1 with recentInputs := if maxRecentInputs < ri.length then ri.dropLast else ri }

def playerRelease (k : ℕ) (s : GameState) : GameState :=
  match findKey k s.players with
  | none => s
  | some player =>
    match player.lastInput with
    | none => s
    | some _ =>
      let players1 := updateKey k (fun p => { p with lastInput := none }) s.players
      { s with players := players1,
               leftPaddle := retract player.lastInput s.leftPaddle,
               rightPaddle := retract player.lastInput s.rightPaddle }

def disconnect (k : ℕ) (s : GameState) : GameState :=
  match findKey k s.players with
  | none => s
  | some player =>
    { s with players := eraseKey k s.players,
             leftPaddle := retract player.lastInput s.leftPaddle,
             rightPaddle := retract player.lastInput s.rightPaddle }

inductive Op
  | join
  | cast (k : ℕ) (d : Dir) (now : ℕ)
  | release (k : ℕ)
  | remove (k : ℕ)

def applyOp (s : GameState) : Op → GameState
  | .join => playerJoin s
  | .cast k d now => playerInput k d.toInput now s
  | .release k => playerRelease k s
  | .remove k => disconnect k s

def run (ops : List Op) (s : GameState) : GameState := ops.foldl applyOp s

/-- In the ball-tracking topology every present participant holding `d`
contributes to BOTH paddles' `d` tallies. -/
def holds (d : Dir) (p : Player) : Bool :=
  decide (p.lastInput = some d.toInput)

def tallies (s : GameState) : ℕ × ℕ × ℕ × ℕ :=
  (s.leftPaddle.upVotes, s.leftPaddle.downVotes,
   s.rightPaddle.upVotes, s.rightPaddle.downVotes)

structure Inv (s : GameState) : Prop where
  nodup : (s.players.map Prod.fst).Nodup
  fresh : ∀ q ∈ s.players, q.1 < s.nextPlayerNumber
  lu : s.leftPaddle.upVotes = countP (holds Dir.up) s.players
  ld : s.leftPaddle.downVotes = countP (holds Dir.down) s.players
  ru : s.rightPaddle.upVotes = countP (holds Dir.up) s.players
  rd : s.rightPaddle.downVotes = countP (holds Dir.down) s.players

end Track

theorem countP_pos {α : Type} {P : α → Bool} {l : List (ℕ × α)} {k : ℕ} {a : α}
    (hm : (k, a) ∈ l) (hP : P a) : 1 ≤ countP P l := by
  have : (k, a) ∈ l.filter (fun q => P q.2) := List.mem_filter.mpr ⟨hm, by simpa using hP⟩
  exact List.length_pos.mpr (List.ne_nil_of_mem this)

namespace Server

theorem retract_upVotes (prev : Option InputVal) (pd : Paddle) :
    (retract prev pd).upVotes =
      if prev = some InputVal.up then pd.upVotes - 1 else pd.upVotes := by
  unfold retract
  by_cases h1 : prev = some InputVal.up <;> by_cases h2 : prev = some InputVal.down <;>
    simp_all

theorem retract_downVotes (prev : Option InputVal) (pd : Paddle) :
    (retract prev pd).downVotes =
      if prev = some InputVal.down then pd.downVotes - 1 else pd.downVotes := by
  unfold retract
  by_cases h1 : prev = some InputVal.up <;> by_cases h2 : prev = some InputVal.down <;>
    simp_all

theorem retract_y (prev : Option InputVal) (pd : Paddle) :
    (retract prev pd).y = pd.y := by
  unfold retract
  by_cases h1 : prev = some InputVal.up <;> by_cases h2 : prev = some InputVal.down <;>
    simp_all

theorem addVote_upVotes (d : InputVal) (pd : Paddle) :
    (addVote d pd).upVotes =
      if d = InputVal.up then pd.upVotes + 1 else pd.upVotes := by
  unfold addVote
  by_cases h1 : d = InputVal.up <;> by_cases h2 : d = InputVal.down <;> simp_all

theorem addVote_downVotes (d : InputVal) (pd : Paddle) :
    (addVote d pd).downVotes =
      if d = InputVal.down then pd.downVotes + 1 else pd.downVotes := by
  unfold addVote
  by_cases h1 : d = InputVal.up <;> by_cases h2 : d = InputVal.down <;> simp_all

theorem addVote_y (d : InputVal) (pd : Paddle) :
    (addVote d pd).y = pd.y := by
  unfold addVote
  by_cases h1 : d = InputVal.up <;> by_cases h2 : d = InputVal.down <;> simp_all

theorem inv_playerJoin {s : GameState} (h : Inv s) : Inv (playerJoin s) := by
  have hfresh : s.nextPlayerNumber ∉ s.players.map Prod.fst := by
    intro hmem
    rcases List.mem_map.mp hmem with ⟨q, hq, hq1⟩
    exact absurd (hq1 ▸ h.fresh q hq) (lt_irrefl _)
  unfold playerJoin
  refine ⟨?_, ?_, ?_, ?_, ?_, ?_⟩ <;> dsimp only
  · rw [List.map_append, List.nodup_append]
    refine ⟨h.nodup, by simp, ?_⟩
    intro x hx hx'
    simp only [List.map_cons, List.map_nil, List.mem_singleton] at hx'
    exact hfresh (hx' ▸ hx)
  · intro q hq
    rcases List.mem_append.mp hq with hq | hq
    · exact Nat.lt_succ_of_lt (h.fresh q hq)
    · simp only [List.mem_singleton] at hq
      simp [hq]
  · rw [countP_append, h.lu]
    simp [contributes]
  · rw [countP_append, h.ld]
    simp [contributes]
  · rw [countP_append, h.ru]
    simp [contributes]
  · rw [countP_append, h.rd]
    simp [contributes]

end Server

theorem tally_step (cnt cnt' tally : ℕ) (p1 p2 : Prop) [Decidable p1] [Decidable p2]
    (hc : cnt' + (if p1 then 1 else 0) = cnt + (if p2 then 1 else 0))
    (htal : tally = cnt) (hpos : p1 → 1 ≤ cnt) :
    (if p2 then (if p1 then tally - 1 else tally) + 1
     else (if p1 then tally - 1 else tally)) = cnt' := by
  by_cases h1 : p1 <;> by_cases h2 : p2 <;>
    simp only [if_pos, if_neg, h1, h2, ite_true, ite_false] at hc ⊢
  · have := hpos h1; omega
  · have := hpos h1; omega
  · omega
  · omega

theorem tally_frame (cnt cnt' tally : ℕ) (p1 p2 : Prop) [Decidable p1] [Decidable p2]
    (hc : cnt' + (if p1 then 1 else 0) = cnt + (if p2 then 1 else 0))
    (htal : tally = cnt) (hn1 : ¬ p1) (hn2 : ¬ p2) : tally = cnt' := by
  simp only [if_neg hn1, if_neg hn2] at hc
  omega

namespace Server

theorem inv_playerInput {s : GameState} (k : ℕ) (direction : InputVal) (now : ℕ)
    (h : Inv s) : Inv (playerInput k direction now s) := by
  rcases hf : findKey k s.players with _ | player
  · simp only [playerInput, hf]
    exact h
  · have hm := findKey_mem hf
    have hcnt := fun (t : Side) (d : Dir) =>
      countP_updateKey (contributes t d)
        (fun p => { p with lastInput := some direction, inputTime := some now })
        h.nodup hm
    rcases ht : player.team with _ | _
    · -- left team
      simp only [playerInput, hf, ht]
      refine ⟨?_, ?_, ?_, ?_, ?_, ?_⟩ <;> dsimp only
      · rw [keys_updateKey]; exact h.nodup
      · intro q hq
        obtain ⟨q0, hq0, he⟩ := mem_updateKey hq
        rw [he]; exact h.fresh q0 hq0
      · rw [addVote_upVotes, retract_upVotes]
        have hc := hcnt Side.left Dir.up
        simp only [contributes, ht, Dir.toInput, decide_eq_true_eq, true_and,
          Option.some.injEq] at hc
        exact tally_step _ _ _ _ _ hc h.lu
          (fun hp => countP_pos hm (by simp [contributes, ht, Dir.toInput, hp]))
      · rw [addVote_downVotes, retract_downVotes]
        have hc := hcnt Side.left Dir.down
        simp only [contributes, ht, Dir.toInput, decide_eq_true_eq, true_and,
          Option.some.injEq] at hc
        exact tally_step _ _ _ _ _ hc h.ld
          (fun hp => countP_pos hm (by simp [contributes, ht, Dir.toInput, hp]))
      · have hc := hcnt Side.right Dir.up
        refine tally_frame _ _ _ _ _ hc h.ru ?_ ?_ <;>
          simp [contributes, ht, Dir.toInput]
      · have hc := hcnt Side.right Dir.down
        refine tally_frame _ _ _ _ _ hc h.rd ?_ ?_ <;>
          simp [contributes, ht, Dir.toInput]
    · -- right team
      simp only [playerInput, hf, ht]
      refine ⟨?_, ?_, ?_, ?_, ?_, ?_⟩ <;> dsimp only
      · rw [keys_updateKey]; exact h.nodup
      · intro q hq
        obtain ⟨q0, hq0, he⟩ := mem_updateKey hq
        rw [he]; exact h.fresh q0 hq0
      · have hc := hcnt Side.left Dir.up
        refine tally_frame _ _ _ _ _ hc h.lu ?_ ?_ <;>
          simp [contributes, ht, Dir.toInput]
      · have hc := hcnt Side.left Dir.down
        refine tally_frame _ _ _ _ _ hc h.ld ?_ ?_ <;>
          simp [contributes, ht, Dir.toInput]
      · rw [addVote_upVotes, retract_upVotes]
        have hc := hcnt Side.right Dir.up
        simp only [contributes, ht, Dir.toInput, decide_eq_true_eq, true_and,
          Option.some.injEq] at hc
        exact tally_step _ _ _ _ _ hc h.ru
          (fun hp => countP_pos hm (by simp [contributes, ht, Dir.toInput, hp]))
      · rw [addVote_downVotes, retract_downVotes]
        have hc := hcnt Side.right Dir.down
        simp only [contributes, ht, Dir.toInput, decide_eq_true_eq, true_and,
          Option.some.injEq] at hc
        exact tally_step _ _ _ _ _ hc h.rd
          (fun hp => countP_pos hm (by simp [contributes, ht, Dir.toInput, hp]))

end Server

theorem tally_retract (cnt cnt' tally : ℕ) (p1 : Prop) [Decidable p1]
    (hc : cnt' + (if p1 then 1 else 0) = cnt)
    (htal : tally = cnt) (hpos : p1 → 1 ≤ cnt) :
    (if p1 then tally - 1 else tally) = cnt' := by
  by_cases h1 : p1 <;> simp only [if_pos, if_neg, h1, ite_true, ite_false] at hc ⊢
  · have := hpos h1; omega
  · omega

namespace Server


theorem inv_playerRelease {s : GameState} (k : ℕ) (h : Inv s) :
    Inv (playerRelease k s) := by
  rcases hf : findKey k s.players with _ | player
  · simp only [playerRelease, hf]
    exact h
  · have hm := findKey_mem hf
    rcases hli : player.lastInput with _ | li
    · simp only [playerRelease, hf, hli]
      exact h
    · have hcnt := fun (t : Side) (d : Dir) =>
        countP_updateKey (contributes t d) (fun p => { p with lastInput := none })
          h.nodup hm
      rcases ht : player.team with _ | _ <;> simp only [playerRelease, hf, hli, ht] <;>
        refine ⟨?_, ?_, ?_, ?_, ?_, ?_⟩ <;> dsimp only
      · rw [keys_updateKey]; exact h.nodup
      · intro q hq
        obtain ⟨q0, hq0, he⟩ := mem_updateKey hq
        rw [he]; exact h.fresh q0 hq0
      · rw [retract_upVotes]
        have hc := hcnt Side.left Dir.up
        simp [contributes, ht, hli, Dir.toInput] at hc
        simp only [Option.some.injEq]
        exact tally_retract _ _ _ _ hc h.lu
          (fun hp => countP_pos hm (by simp [contributes, ht, hli, Dir.toInput, hp]))
      · rw [retract_downVotes]
        have hc := hcnt Side.left Dir.down
        simp [contributes, ht, hli, Dir.toInput] at hc
        simp only [Option.some.injEq]
        exact tally_retract _ _ _ _ hc h.ld
          (fun hp => countP_pos hm (by simp [contributes, ht, hli, Dir.toInput, hp]))
      · have hc := hcnt Side.right Dir.up
        refine tally_frame _ _ _ _ _ hc h.ru ?_ ?_ <;>
          simp [contributes, ht, Dir.toInput]
      · have hc := hcnt Side.right Dir.down
        refine tally_frame _ _ _ _ _ hc h.rd ?_ ?_ <;>
          simp [contributes, ht, Dir.toInput]
      · rw [keys_updateKey]; exact h.nodup
      · intro q hq
        obtain ⟨q0, hq0, he⟩ := mem_updateKey hq
        rw [he]; exact h.fresh q0 hq0
      · have hc := hcnt Side.left Dir.up
        refine tally_frame _ _ _ _ _ hc h.lu ?_ ?_ <;>
          simp [contributes, ht, Dir.toInput]
      · have hc := hcnt Side.left Dir.down
        refine tally_frame _ _ _ _ _ hc h.ld ?_ ?_ <;>
          simp [contributes, ht, Dir.toInput]
      · rw [retract_upVotes]
        have hc := hcnt Side.right Dir.up
        simp [contributes, ht, hli, Dir.toInput] at hc
        simp only [Option.some.injEq]
        exact tally_retract _ _ _ _ hc h.ru
          (fun hp => countP_pos hm (by simp [contributes, ht, hli, Dir.toInput, hp]))
      · rw [retract_downVotes]
        have hc := hcnt Side.right Dir.down
        simp [contributes, ht, hli, Dir.toInput] at hc
        simp only [Option.some.injEq]
        exact tally_retract _ _ _ _ hc h.rd
          (fun hp => countP_pos hm (by simp [contributes, ht, hli, Dir.toInput, hp]))

theorem tally_erase_frame (cnt cnt' tally : ℕ) (p1 : Prop) [Decidable p1]
    (hc : cnt' + (if p1 then 1 else 0) = cnt)
    (htal : tally = cnt) (hn1 : ¬ p1) : tally = cnt' := by
  simp only [if_neg hn1, add_zero] at hc
  omega

theorem inv_disconnect {s : GameState} (k : ℕ) (h : Inv s) :
    Inv (disconnect k s) := by
  rcases hf : findKey k s.players with _ | player
  · simp only [disconnect, hf]
    exact h
  · have hm := findKey_mem hf
    have hcnt := fun (t : Side) (d : Dir) =>
      countP_eraseKey (contributes t d) (l := s.players) (k := k) h.nodup hm
    rcases ht : player.team with _ | _ <;> simp only [disconnect, hf, ht] <;>
      refine ⟨?_, ?_, ?_, ?_, ?_, ?_⟩ <;> dsimp only
    · exact h.nodup.sublist (keys_eraseKey_sublist k s.players)
    · intro q hq
      exact h.fresh q (mem_eraseKey hq)
    · rw [retract_upVotes]
      have hc := hcnt Side.left Dir.up
      simp only [contributes, ht, Dir.toInput, decide_eq_true_eq, true_and] at hc
      exact tally_retract _ _ _ _ hc h.lu
        (fun hp => countP_pos hm (by simp [contributes, ht, Dir.toInput, hp]))
    · rw [retract_downVotes]
      have hc := hcnt Side.left Dir.down
      simp only [contributes, ht, Dir.toInput, decide_eq_true_eq, true_and] at hc
      exact tally_retract _ _ _ _ hc h.ld
        (fun hp => countP_pos hm (by simp [contributes, ht, Dir.toInput, hp]))
    · have hc := hcnt Side.right Dir.up
      refine tally_erase_frame _ _ _ _ hc h.ru ?_
      simp [contributes, ht, Dir.toInput]
    · have hc := hcnt Side.right Dir.down
      refine tally_erase_frame _ _ _ _ hc h.rd ?_
      simp [contributes, ht, Dir.toInput]
    · exact h.nodup.sublist (keys_eraseKey_sublist k s.players)
    · intro q hq
      exact h.fresh q (mem_eraseKey hq)
    · have hc := hcnt Side.left Dir.up
      refine tally_erase_frame _ _ _ _ hc h.lu ?_
      simp [contributes, ht, Dir.toInput]
    · have hc := hcnt Side.left Dir.down
      refine tally_erase_frame _ _ _ _ hc h.ld ?_
      simp [contributes, ht, Dir.toInput]
    · rw [retract_upVotes]
      have hc := hcnt Side.right Dir.up
      simp only [contributes, ht, Dir.toInput, decide_eq_true_eq, true_and] at hc
      exact tally_retract _ _ _ _ hc h.ru
        (fun hp => countP_pos hm (by simp [contributes, ht, Dir.toInput, hp]))
    · rw [retract_downVotes]
      have hc := hcnt Side.right Dir.down
      simp only [contributes, ht, Dir.toInput, decide_eq_true_eq, true_and] at hc
      exact tally_retract _ _ _ _ hc h.rd
        (fun hp => countP_pos hm (by simp [contributes, ht, Dir.toInput, hp]))

end Server

namespace Track

theorem retract_upVotes_t (prev : Option InputVal) (pd : Paddle) :
    (retract prev pd).upVotes =
      if prev = some InputVal.up then pd.upVotes - 1 else pd.upVotes := by
  unfold retract
  by_cases h1 : prev = some InputVal.up <;> by_cases h2 : prev = some InputVal.down <;>
    simp_all

theorem retract_downVotes_t (prev : Option InputVal) (pd : Paddle) :
    (retract prev pd).downVotes =
      if prev = some InputVal.down then pd.downVotes - 1 else pd.downVotes := by
  unfold retract
  by_cases h1 : prev = some InputVal.up <;> by_cases h2 : prev = some InputVal.down <;>
    simp_all

theorem retract_y_t (prev : Option InputVal) (pd : Paddle) :
    (retract prev pd).y = pd.y := by
  unfold retract
  by_cases h1 : prev = some InputVal.up <;> by_cases h2 : prev = some InputVal.down <;>
    simp_all

theorem addVote_upVotes_t (d : InputVal) (pd : Paddle) :
    (addVote d pd).upVotes =
      if d = InputVal.up then pd.upVotes + 1 else pd.upVotes := by
  unfold addVote
  by_cases h1 : d = InputVal.up <;> by_cases h2 : d = InputVal.down <;> simp_all

theorem addVote_downVotes_t (d : InputVal) (pd : Paddle) :
    (addVote d pd).downVotes =
      if d = InputVal.down then pd.downVotes + 1 else pd.downVotes := by
  unfold addVote
  by_cases h1 : d = InputVal.up <;> by_cases h2 : d = InputVal.down <;> simp_all

theorem addVote_y_t (d : InputVal) (pd : Paddle) :
    (addVote d pd).y = pd.y := by
  unfold addVote
  by_cases h1 : d = InputVal.up <;> by_cases h2 : d = InputVal.down <;> simp_all

theorem inv_playerJoin_t {s : GameState} (h : Inv s) : Inv (playerJoin s) := by
  have hfresh : s.nextPlayerNumber ∉ s.players.map Prod.fst := by
    intro hmem
    rcases List.mem_map.mp hmem with ⟨q, hq, hq1⟩
    exact absurd (hq1 ▸ h.fresh q hq) (lt_irrefl _)
  unfold playerJoin
  refine ⟨?_, ?_, ?_, ?_, ?_, ?_⟩ <;> dsimp only
  · rw [List.map_append, List.nodup_append]
    refine ⟨h.nodup, by simp, ?_⟩
    intro x hx hx'
    simp only [List.map_cons, List.map_nil, List.mem_singleton] at hx'
    exact hfresh (hx' ▸ hx)
  · intro q hq
    rcases List.mem_append.mp hq with hq | hq
    · exact Nat.lt_succ_of_lt (h.fresh q hq)
    · simp only [List.mem_singleton] at hq
      simp [hq]
  · rw [countP_append, h.lu]
    simp [holds]
  · rw [countP_append, h.ld]
    simp [holds]
  · rw [countP_append, h.ru]
    simp [holds]
  · rw [countP_append, h.rd]
    simp [holds]

theorem inv_playerInput_t {s : GameState} (k : ℕ) (direction : InputVal) (now : ℕ)
    (h : Inv s) : Inv (playerInput k direction now s) := by
  rcases hf : findKey k s.players with _ | player
  · simp only [playerInput, hf]
    exact h
  · have hm := findKey_mem hf
    have hcnt := fun (d : Dir) =>
      countP_updateKey (holds d)
        (fun p => { p with lastInput := some direction, inputTime := some now })
        h.nodup hm
    simp only [playerInput, hf]
    refine ⟨?_, ?_, ?_, ?_, ?_, ?_⟩ <;> dsimp only
    · rw [keys_updateKey]; exact h.nodup
    · intro q hq
      obtain ⟨q0, hq0, he⟩ := mem_updateKey hq
      rw [he]; exact h.fresh q0 hq0
    · rw [addVote_upVotes_t, retract_upVotes_t]
      have hc := hcnt Dir.up
      simp only [holds, Dir.toInput, decide_eq_true_eq, Option.some.injEq] at hc
      exact tally_step _ _ _ _ _ hc h.lu
        (fun hp => countP_pos hm (by simp [holds, Dir.toInput, hp]))
    · rw [addVote_downVotes_t, retract_downVotes_t]
      have hc := hcnt Dir.down
      simp only [holds, Dir.toInput, decide_eq_true_eq, Option.some.injEq] at hc
      exact tally_step _ _ _ _ _ hc h.ld
        (fun hp => countP_pos hm (by simp [holds, Dir.toInput, hp]))
    · rw [addVote_upVotes_t, retract_upVotes_t]
      have hc := hcnt Dir.up
      simp only [holds, Dir.toInput, decide_eq_true_eq, Option.some.injEq] at hc
      exact tally_step _ _ _ _ _ hc h.ru
        (fun hp => countP_pos hm (by simp [holds, Dir.toInput, hp]))
    · rw [addVote_downVotes_t, retract_downVotes_t]
      have hc := hcnt Dir.down
      simp only [holds, Dir.toInput, decide_eq_true_eq, Option.some.injEq] at hc
      exact tally_step _ _ _ _ _ hc h.rd
        (fun hp => countP_pos hm (by simp [holds, Dir.toInput, hp]))

theorem inv_playerRelease_t {s : GameState} (k : ℕ) (h : Inv s) :
    Inv (playerRelease k s) := by
  rcases hf : findKey k s.players with _ | player
  · simp only [playerRelease, hf]
    exact h
  · have hm := findKey_mem hf
    rcases hli : player.lastInput with _ | li
    · simp only [playerRelease, hf, hli]
      exact h
    · have hcnt := fun (d : Dir) =>
        countP_updateKey (holds d) (fun p => { p with lastInput := none })
          h.nodup hm
      simp only [playerRelease, hf, hli]
      refine ⟨?_, ?_, ?_, ?_, ?_, ?_⟩ <;> dsimp only
      · rw [keys_updateKey]; exact h.nodup
      · intro q hq
        obtain ⟨q0, hq0, he⟩ := mem_updateKey hq
        rw [he]; exact h.fresh q0 hq0
      · rw [retract_upVotes_t]
        have hc := hcnt Dir.up
        simp [holds, hli, Dir.toInput] at hc
        simp only [Option.some.injEq]
        exact tally_retract _ _ _ _ hc h.lu
          (fun hp => countP_pos hm (by simp [holds, hli, Dir.toInput, hp]))
      · rw [retract_downVotes_t]
        have hc := hcnt Dir.down
        simp [holds, hli, Dir.toInput] at hc
        simp only [Option.some.injEq]
        exact tally_retract _ _ _ _ hc h.ld
          (fun hp => countP_pos hm (by simp [holds, hli, Dir.toInput, hp]))
      · rw [retract_upVotes_t]
        have hc := hcnt Dir.up
        simp [holds, hli, Dir.toInput] at hc
        simp only [Option.some.injEq]
        exact tally_retract _ _ _ _ hc h.ru
          (fun hp => countP_pos hm (by simp [holds, hli, Dir.toInput, hp]))
      · rw [retract_downVotes_t]
        have hc := hcnt Dir.down
        simp [holds, hli, Dir.toInput] at hc
        simp only [Option.some.injEq]
        exact tally_retract _ _ _ _ hc h.rd
          (fun hp => countP_pos hm (by simp [holds, hli, Dir.toInput, hp]))

theorem inv_disconnect_t {s : GameState} (k : ℕ) (h : Inv s) :
    Inv (disconnect k s) := by
  rcases hf : findKey k s.players with _ | player
  · simp only [disconnect, hf]
    exact h
  · have hm := findKey_mem hf
    have hcnt := fun (d : Dir) =>
      countP_eraseKey (holds d) (l := s.players) (k := k) h.nodup hm
    simp only [disconnect, hf]
    refine ⟨?_, ?_, ?_, ?_, ?_, ?_⟩ <;> dsimp only
    · exact h.nodup.sublist (keys_eraseKey_sublist k s.players)
    · intro q hq
      exact h.fresh q (mem_eraseKey hq)
    · rw [retract_upVotes_t]
      have hc := hcnt Dir.up
      simp only [holds, Dir.toInput, decide_eq_true_eq] at hc
      exact tally_retract _ _ _ _ hc h.lu
        (fun hp => countP_pos hm (by simp [holds, Dir.toInput, hp]))
    · rw [retract_downVotes_t]
      have hc := hcnt Dir.down
      simp only [holds, Dir.toInput, decide_eq_true_eq] at hc
      exact tally_retract _ _ _ _ hc h.ld
        (fun hp => countP_pos hm (by simp [holds, Dir.toInput, hp]))
    · rw [retract_upVotes_t]
      have hc := hcnt Dir.up
      simp only [holds, Dir.toInput, decide_eq_true_eq] at hc
      exact tally_retract _ _ _ _ hc h.ru
        (fun hp => countP_pos hm (by simp [holds, Dir.toInput, hp]))
    · rw [retract_downVotes_t]
      have hc := hcnt Dir.down
      simp only [holds, Dir.toInput, decide_eq_true_eq] at hc
      exact tally_retract _ _ _ _ hc h.rd
        (fun hp => countP_pos hm (by simp [holds, Dir.toInput, hp]))

end Track

namespace Server

theorem inv_applyOp {s : GameState} (op : Op) (h : Inv s) : Inv (applyOp s op) := by
  cases op with
  | join => exact inv_playerJoin h
  | cast k d now => exact inv_playerInput k d.toInput now h
  | release k => exact inv_playerRelease k h
  | remove k => exact inv_disconnect k h

theorem inv_run (ops : List Op) :
    ∀ {s : GameState}, Inv s → Inv (run ops s) := by
  induction ops with
  | nil => intro s h; exact h
  | cons op ops ih =>
    intro s h
    exact ih (inv_applyOp op h)

theorem inv_initialState (coin : Bool) : Inv (initialState coin) := by
  refine ⟨?_, ?_, ?_, ?_, ?_, ?_⟩ <;> simp [initialState, countP]

end Server

namespace Track

theorem inv_applyOp_t {s : GameState} (op : Op) (h : Inv s) : Inv (applyOp s op) := by
  cases op with
  | join => exact inv_playerJoin_t h
  | cast k d now => exact inv_playerInput_t k d.toInput now h
  | release k => exact inv_playerRelease_t k h
  | remove k => exact inv_disconnect_t k h

theorem inv_run_t (ops : List Op) :
    ∀ {s : GameState}, Inv s → Inv (run ops s) := by
  induction ops with
  | nil => intro s h; exact h
  | cons op ops ih =>
    intro s h
    exact ih (inv_applyOp_t op h)

theorem inv_initialState_t (coin : Bool) : Inv (initialState coin) := by
  refine ⟨?_, ?_, ?_, ?_, ?_, ?_⟩ <;> simp [initialState, countP]

end Track

namespace Server

theorem playerInput_players {s : GameState} {k : ℕ} {p : Player}
    (dir : InputVal) (now : ℕ) (hf : findKey k s.players = some p) :
    (playerInput k dir now s).players =
      updateKey k (fun q => { q with lastInput := some dir, inputTime := some now })
        s.players := by
  rcases ht : p.team with _ | _ <;> simp only [playerInput, hf, ht]

theorem playerInput_leftPaddle_left {s : GameState} {k : ℕ} {p : Player}
    (dir : InputVal) (now : ℕ) (hf : findKey k s.players = some p)
    (ht : p.team = Side.left) :
    (playerInput k dir now s).leftPaddle =
      addVote dir (retract p.lastInput s.leftPaddle) := by
  simp only [playerInput, hf, ht]

theorem playerInput_rightPaddle_left {s : GameState} {k : ℕ} {p : Player}
    (dir : InputVal) (now : ℕ) (hf : findKey k s.players = some p)
    (ht : p.team = Side.left) :
    (playerInput k dir now s).rightPaddle = s.rightPaddle := by
  simp only [playerInput, hf, ht]

theorem playerInput_leftPaddle_right {s : GameState} {k : ℕ} {p : Player}
    (dir : InputVal) (now : ℕ) (hf : findKey k s.players = some p)
    (ht : p.team = Side.right) :
    (playerInput k dir now s).leftPaddle = s.leftPaddle := by
  simp only [playerInput, hf, ht]

theorem playerInput_rightPaddle_right {s : GameState} {k : ℕ} {p : Player}
    (dir : InputVal) (now : ℕ) (hf : findKey k s.players = some p)
    (ht : p.team = Side.right) :
    (playerInput k dir now s).rightPaddle =
      addVote dir (retract p.lastInput s.rightPaddle) := by
  simp only [playerInput, hf, ht]

theorem playerInput_status (k : ℕ) (dir : InputVal) (now : ℕ) (s : GameState) :
    (playerInput k dir now s).status = s.status := by
  rcases hf : findKey k s.players with _ | p
  · simp only [playerInput, hf]
  · rcases ht : p.team with _ | _ <;> simp only [playerInput, hf, ht]

theorem playerInput_ball (k : ℕ) (dir : InputVal) (now : ℕ) (s : GameState) :
    (playerInput k dir now s).ball = s.ball := by
  rcases hf : findKey k s.players with _ | p
  · simp only [playerInput, hf]
  · rcases ht : p.team with _ | _ <;> simp only [playerInput, hf, ht]

theorem playerInput_leftPaddle_y (k : ℕ) (dir : InputVal) (now : ℕ) (s : GameState) :
    (playerInput k dir now s).leftPaddle.y = s.leftPaddle.y := by
  rcases hf : findKey k s.players with _ | p
  · simp only [playerInput, hf]
  · rcases ht : p.team with _ | _
    · simp only [playerInput, hf, ht]
      rw [addVote_y, retract_y]
    · simp only [playerInput, hf, ht]

theorem playerInput_rightPaddle_y (k : ℕ) (dir : InputVal) (now : ℕ) (s : GameState) :
    (playerInput k dir now s).rightPaddle.y = s.rightPaddle.y := by
  rcases hf : findKey k s.players with _ | p
  · simp only [playerInput, hf]
  · rcases ht : p.team with _ | _
    · simp only [playerInput, hf, ht]
    · simp only [playerInput, hf, ht]
      rw [addVote_y, retract_y]

/-- Re-casting the held direction retracts one vote and re-adds it. -/
theorem addVote_retract_same (d : Dir) (pd : Paddle) :
    addVote d.toInput (retract (some d.toInput) (addVote d.toInput pd)) =
      addVote d.toInput pd := by
  cases d <;> simp [addVote, retract, Dir.toInput]

end Server

namespace Track

theorem playerInput_players_t {s : GameState} {k : ℕ} {p : Player}
    (dir : InputVal) (now : ℕ) (hf : findKey k s.players = some p) :
    (playerInput k dir now s).players =
      updateKey k (fun q => { q with lastInput := some dir, inputTime := some now })
        s.players := by
  simp only [playerInput, hf]

theorem playerInput_leftPaddle {s : GameState} {k : ℕ} {p : Player}
    (dir : InputVal) (now : ℕ) (hf : findKey k s.players = some p) :
    (playerInput k dir now s).leftPaddle =
      addVote dir (retract p.lastInput s.leftPaddle) := by
  simp only [playerInput, hf]

theorem playerInput_rightPaddle {s : GameState} {k : ℕ} {p : Player}
    (dir : InputVal) (now : ℕ) (hf : findKey k s.players = some p) :
    (playerInput k dir now s).rightPaddle =
      addVote dir (retract p.lastInput s.rightPaddle) := by
  simp only [playerInput, hf]

theorem addVote_retract_same_t (d : Dir) (pd : Paddle) :
    addVote d.toInput (retract (some d.toInput) (addVote d.toInput pd)) =
      addVote d.toInput pd := by
  cases d <;> simp [addVote, retract, Dir.toInput]

end Track

theorem countP_add_eq_countP_or {α : Type} (P Q : α → Bool) (l : List (ℕ × α))
    (hd : ∀ a, ¬(P a = true ∧ Q a = true)) :
    countP P l + countP Q l = countP (fun a => P a || Q a) l := by
  induction l with
  | nil => rfl
  | cons q l ih =>
    rw [countP_cons, countP_cons, countP_cons]
    by_cases h1 : P q.2 <;> by_cases h2 : Q q.2
    · exact absurd ⟨h1, h2⟩ (hd q.2)
    · simp [h1, h2]
      omega
    · simp [h1, h2]
      omega
    · simp [h1, h2]
      omega

namespace Server

/-- Does this participant currently contribute a (well-formed) vote to the
`t` paddle's tallies? -/
def contributesVote (t : Side) (p : Player) : Bool :=
  decide (p.team = t ∧
    (p.lastInput = some InputVal.up ∨ p.lastInput = some InputVal.down))

theorem contributesVote_eq (t : Side) (p : Player) :
    contributesVote t p =
      (contributes t Dir.up p || contributes t Dir.down p) := by
  by_cases hA : p.team = t <;> by_cases hu : p.lastInput = some InputVal.up <;>
    by_cases hd2 : p.lastInput = some InputVal.down <;>
    simp [contributesVote, contributes, Dir.toInput, hA, hu, hd2]

theorem contributes_disjoint (t : Side) (p : Player) :
    ¬(contributes t Dir.up p = true ∧ contributes t Dir.down p = true) := by
  simp only [contributes, Dir.toInput, decide_eq_true_eq]
  rintro ⟨⟨-, h1⟩, -, h2⟩
  rw [h1] at h2
  simp at h2

end Server

namespace Track

/-- Does this participant currently contribute a (well-formed) vote
(to both paddles, in this variant)? -/
def holdsVote (p : Player) : Bool :=
  decide (p.lastInput = some InputVal.up ∨ p.lastInput = some InputVal.down)

theorem holdsVote_eq (p : Player) :
    holdsVote p = (holds Dir.up p || holds Dir.down p) := by
  by_cases hu : p.lastInput = some InputVal.up <;>
    by_cases hd2 : p.lastInput = some InputVal.down <;>
    simp [holdsVote, holds, Dir.toInput, hu, hd2]

theorem holds_disjoint (p : Player) :
    ¬(holds Dir.up p = true ∧ holds Dir.down p = true) := by
  simp only [holds, Dir.toInput, decide_eq_true_eq]
  rintro ⟨h1, h2⟩
  rw [h1] at h2
  simp at h2

end Track

/-- Claim C4: for all sequences of join / cast (`player:input` with `up` or
`down`) / release / remove operations starting from the boot state (empty
ledger), each paddle's `upVotes + downVotes` equals the number of currently
present participants whose held direction contributes to that paddle under
the variant's control topology (own team's paddle in the fixed-team variant,
both paddles in the ball-tracking variant), and the tallies are non-negative
integers. -/
theorem claim_C4_tally_matches_holders :
    (∀ (coin : Bool) (ops : List Server.Op),
      (Server.run ops (Server.initialState coin)).leftPaddle.upVotes +
        (Server.run ops (Server.initialState coin)).leftPaddle.downVotes =
        countP (Server.contributesVote Side.left)
          (Server.run ops (Server.initialState coin)).players ∧
      (Server.run ops (Server.initialState coin)).rightPaddle.upVotes +
        (Server.run ops (Server.initialState coin)).rightPaddle.downVotes =
        countP (Server.contributesVote Side.right)
          (Server.run ops (Server.initialState coin)).players ∧
      0 ≤ (Server.run ops (Server.initialState coin)).leftPaddle.upVotes ∧
      0 ≤ (Server.run ops (Server.initialState coin)).leftPaddle.downVotes ∧
      0 ≤ (Server.run ops (Server.initialState coin)).rightPaddle.upVotes ∧
      0 ≤ (Server.run ops (Server.initialState coin)).rightPaddle.downVotes) ∧
    (∀ (coin : Bool) (ops : List Track.Op),
      (Track.run ops (Track.initialState coin)).leftPaddle.upVotes +
        (Track.run ops (Track.initialState coin)).leftPaddle.downVotes =
        countP Track.holdsVote (Track.run ops (Track.initialState coin)).players ∧
      (Track.run ops (Track.initialState coin)).rightPaddle.upVotes +
        (Track.run ops (Track.initialState coin)).rightPaddle.downVotes =
        countP Track.holdsVote (Track.run ops (Track.initialState coin)).players ∧
      0 ≤ (Track.run ops (Track.initialState coin)).leftPaddle.upVotes ∧
      0 ≤ (Track.run ops (Track.initialState coin)).leftPaddle.downVotes ∧
      0 ≤ (Track.run ops (Track.initialState coin)).rightPaddle.upVotes ∧
      0 ≤ (Track.run ops (Track.initialState coin)).rightPaddle.downVotes) := by
  constructor
  · intro coin ops
    have h := Server.inv_run ops (Server.inv_initialState coin)
    have hfeL : Server.contributesVote Side.left =
        fun p => Server.contributes Side.left Dir.up p ||
          Server.contributes Side.left Dir.down p :=
      funext fun p => Server.contributesVote_eq Side.left p
    have hfeR : Server.contributesVote Side.right =
        fun p => Server.contributes Side.right Dir.up p ||
          Server.contributes Side.right Dir.down p :=
      funext fun p => Server.contributesVote_eq Side.right p
    refine ⟨?_, ?_, Nat.zero_le _, Nat.zero_le _, Nat.zero_le _, Nat.zero_le _⟩
    · rw [h.lu, h.ld, hfeL]
      exact countP_add_eq_countP_or _ _ _
        (fun p => Server.contributes_disjoint Side.left p)
    · rw [h.ru, h.rd, hfeR]
      exact countP_add_eq_countP_or _ _ _
        (fun p => Server.contributes_disjoint Side.right p)
  · intro coin ops
    have h := Track.inv_run_t ops (Track.inv_initialState_t coin)
    have hfe : Track.holdsVote =
        fun p => Track.holds Dir.up p || Track.holds Dir.down p :=
      funext fun p => Track.holdsVote_eq p
    refine ⟨?_, ?_, Nat.zero_le _, Nat.zero_le _, Nat.zero_le _, Nat.zero_le _⟩
    · rw [h.lu, h.ld, hfe]
      exact countP_add_eq_countP_or _ _ _ (fun p => Track.holds_disjoint p)
    · rw [h.ru, h.rd, hfe]
      exact countP_add_eq_countP_or _ _ _ (fun p => Track.holds_disjoint p)

/-- Claim C5: casting the same direction twice in a row does not
double-count — after the second cast all four paddle tallies equal their
values after the first cast, in both variants. -/
theorem claim_C5_recast_idempotent :
    (∀ (s : Server.GameState) (k : ℕ) (d : Dir) (n1 n2 : ℕ) (p : Server.Player),
      findKey k s.players = some p →
      Server.tallies
        (Server.playerInput k d.toInput n2 (Server.playerInput k d.toInput n1 s)) =
        Server.tallies (Server.playerInput k d.toInput n1 s)) ∧
    (∀ (s : Track.GameState) (k : ℕ) (d : Dir) (n1 n2 : ℕ) (p : Track.Player),
      findKey k s.players = some p →
      Track.tallies
        (Track.playerInput k d.toInput n2 (Track.playerInput k d.toInput n1 s)) =
        Track.tallies (Track.playerInput k d.toInput n1 s)) := by
  constructor
  · intro s k d n1 n2 p hf
    have hpl := Server.playerInput_players d.toInput n1 hf
    have hf2 : findKey k (Server.playerInput k d.toInput n1 s).players =
        some { p with lastInput := some d.toInput, inputTime := some n1 } := by
      rw [hpl, findKey_updateKey_self, hf]
      rfl
    rcases ht : p.team with _ | _
    · have e1 := Server.playerInput_leftPaddle_left d.toInput n1 hf ht
      have e2 := Server.playerInput_rightPaddle_left d.toInput n1 hf ht
      have e1' := Server.playerInput_leftPaddle_left d.toInput n2 hf2 ht
      have e2' := Server.playerInput_rightPaddle_left d.toInput n2 hf2 ht
      unfold Server.tallies
      rw [e1', e2', e1]
      rw [Server.addVote_retract_same]
    · have e1 := Server.playerInput_leftPaddle_right d.toInput n1 hf ht
      have e2 := Server.playerInput_rightPaddle_right d.toInput n1 hf ht
      have e1' := Server.playerInput_leftPaddle_right d.toInput n2 hf2 ht
      have e2' := Server.playerInput_rightPaddle_right d.toInput n2 hf2 ht
      unfold Server.tallies
      rw [e1', e2', e2]
      rw [Server.addVote_retract_same]
  · intro s k d n1 n2 p hf
    have hpl := Track.playerInput_players_t d.toInput n1 hf
    have hf2 : findKey k (Track.playerInput k d.toInput n1 s).players =
        some { p with lastInput := some d.toInput, inputTime := some n1 } := by
      rw [hpl, findKey_updateKey_self, hf]
      rfl
    have e1 := Track.playerInput_leftPaddle d.toInput n1 hf
    have e2 := Track.playerInput_rightPaddle d.toInput n1 hf
    have e1' := Track.playerInput_leftPaddle d.toInput n2 hf2
    have e2' := Track.playerInput_rightPaddle d.toInput n2 hf2
    unfold Track.tallies
    rw [e1', e2', e1, e2]
    rw [Track.addVote_retract_same_t, Track.addVote_retract_same_t]

/-- Example fixed-team state with one right-team participant holding no
vote, used to witness the recast claim at a concrete input. -/
def exSrv : Server.GameState :=
  { status := Status.playing
    ball := { x := 600, y := 300, vx := 5, vy := 5 }
    leftPaddle := { y := 240, upVotes := 0, downVotes := 0 }
    rightPaddle := { y := 240, upVotes := 0, downVotes := 0 }
    score := { left := 0, right := 0 }
    round := 1
    ballSpeed := 5
    players := [(1, { number := 1, team := Side.right, lastInput := none,
                      inputTime := none })]
    nextPlayerNumber := 2
    recentInputs := []
    pendingResets := 0 }

theorem claim_C5_witness :
    Server.tallies
      (Server.playerInput 1 Dir.up.toInput 1 (Server.playerInput 1 Dir.up.toInput 0 exSrv)) =
      Server.tallies (Server.playerInput 1 Dir.up.toInput 0 exSrv) :=
  claim_C5_recast_idempotent.1 exSrv 1 Dir.up 0 1
    { number := 1, team := Side.right, lastInput := none, inputTime := none } rfl

/-- Displacement formula facts for a generic paddle speed. -/
theorem calc_spec (ps : ℚ) (hps : 0 < ps) (u v : ℕ) :
    (u = 0 ∧ v = 0 → calcPaddleMovement ps u v = 0) ∧
    (u = v → calcPaddleMovement ps u v = 0) ∧
    (v < u →
      calcPaddleMovement ps u v =
        -(ps * (max ((u:ℚ)/((u:ℚ)+(v:ℚ))) ((v:ℚ)/((u:ℚ)+(v:ℚ))) - 1/2) * 2) ∧
      calcPaddleMovement ps u v < 0) ∧
    (u < v →
      calcPaddleMovement ps u v =
        ps * (max ((u:ℚ)/((u:ℚ)+(v:ℚ))) ((v:ℚ)/((u:ℚ)+(v:ℚ))) - 1/2) * 2 ∧
      0 < calcPaddleMovement ps u v) := by
  refine ⟨?_, ?_, ?_, ?_⟩
  · rintro ⟨rfl, rfl⟩
    simp [calcPaddleMovement]
  · rintro rfl
    by_cases hz : u = 0
    · subst hz
      simp [calcPaddleMovement]
    · have htot : ¬(u + u = 0) := by omega
      simp [calcPaddleMovement, htot, lt_irrefl]
  · intro hvu
    have htot : ¬(u + v = 0) := by omega
    have htpos : (0:ℚ) < ((u + v : ℕ) : ℚ) := by
      exact_mod_cast Nat.pos_of_ne_zero htot
    have hlt : ((v:ℚ))/((u + v : ℕ):ℚ) < ((u:ℚ))/((u + v : ℕ):ℚ) :=
      (div_lt_div_iff_of_pos_right htpos).mpr (by exact_mod_cast hvu)
    have hhalf : (1:ℚ)/2 < (u:ℚ)/((u + v : ℕ):ℚ) := by
      rw [lt_div_iff₀ htpos]
      push_cast
      have hc : (v:ℚ) < (u:ℚ) := by exact_mod_cast hvu
      linarith
    have hval : calcPaddleMovement ps u v = -ps * ((u:ℚ)/((u + v : ℕ):ℚ) - 1/2) * 2 := by
      simp only [calcPaddleMovement]
      rw [if_neg htot, if_pos hlt]
    constructor
    · rw [hval]
      rw [max_eq_left (le_of_lt (by push_cast at hlt ⊢; exact hlt))]
      push_cast
      ring
    · rw [hval]
      have hA : (0:ℚ) < (u:ℚ)/((u + v : ℕ):ℚ) - 1/2 := by linarith
      have hpa := mul_pos hps hA
      linarith
  · intro huv
    have htot : ¬(u + v = 0) := by omega
    have htpos : (0:ℚ) < ((u + v : ℕ) : ℚ) := by
      exact_mod_cast Nat.pos_of_ne_zero htot
    have hlt : ((u:ℚ))/((u + v : ℕ):ℚ) < ((v:ℚ))/((u + v : ℕ):ℚ) :=
      (div_lt_div_iff_of_pos_right htpos).mpr (by exact_mod_cast huv)
    have hhalf : (1:ℚ)/2 < (v:ℚ)/((u + v : ℕ):ℚ) := by
      rw [lt_div_iff₀ htpos]
      push_cast
      have hc : (u:ℚ) < (v:ℚ) := by exact_mod_cast huv
      linarith
    have hval : calcPaddleMovement ps u v = ps * ((v:ℚ)/((u + v : ℕ):ℚ) - 1/2) * 2 := by
      simp only [calcPaddleMovement]
      rw [if_neg htot, if_neg (not_lt_of_lt hlt), if_pos hlt]
    constructor
    · rw [hval]
      rw [max_eq_right (le_of_lt (by push_cast at hlt ⊢; exact hlt))]
      push_cast
      ring
    · rw [hval]
      have hA : (0:ℚ) < (v:ℚ)/((u + v : ℕ):ℚ) - 1/2 := by linarith
      have hpa := mul_pos hps hA
      linarith

theorem calc_unanimous (ps : ℚ) : calcPaddleMovement ps 1 0 = -ps := by
  norm_num [calcPaddleMovement]
  ring

/-- Claim C6: per-tick displacement from votes: zero when there are no votes
or the tallies tie; otherwise `paddleSpeed * (max(u,d) - 0.5) * 2` in
magnitude, negative (up) when up-votes dominate and positive (down) when
down-votes dominate; a 1:0 unanimous up vote yields exactly `-paddleSpeed`.
Both variants' `calculatePaddleMovement` are the shared formula at their
respective `PADDLE_SPEED`. -/
theorem claim_C6_displacement_formula :
    (∀ pd : Server.Paddle,
      Server.calculatePaddleMovement pd =
        calcPaddleMovement Server.PADDLE_SPEED pd.upVotes pd.downVotes) ∧
    (∀ pd : Track.Paddle,
      Track.calculatePaddleMovement pd =
        calcPaddleMovement Track.PADDLE_SPEED pd.upVotes pd.downVotes) ∧
    (∀ u v : ℕ,
      (u = 0 ∧ v = 0 → calcPaddleMovement Server.PADDLE_SPEED u v = 0) ∧
      (u = v → calcPaddleMovement Server.PADDLE_SPEED u v = 0) ∧
      (v < u →
        calcPaddleMovement Server.PADDLE_SPEED u v =
          -(Server.PADDLE_SPEED *
            (max ((u:ℚ)/((u:ℚ)+(v:ℚ))) ((v:ℚ)/((u:ℚ)+(v:ℚ))) - 1/2) * 2) ∧
        calcPaddleMovement Server.PADDLE_SPEED u v < 0) ∧
      (u < v →
        calcPaddleMovement Server.PADDLE_SPEED u v =
          Server.PADDLE_SPEED *
            (max ((u:ℚ)/((u:ℚ)+(v:ℚ))) ((v:ℚ)/((u:ℚ)+(v:ℚ))) - 1/2) * 2 ∧
        0 < calcPaddleMovement Server.PADDLE_SPEED u v)) ∧
    (∀ u v : ℕ,
      (u = 0 ∧ v = 0 → calcPaddleMovement Track.PADDLE_SPEED u v = 0) ∧
      (u = v → calcPaddleMovement Track.PADDLE_SPEED u v = 0) ∧
      (v < u →
        calcPaddleMovement Track.PADDLE_SPEED u v =
          -(Track.PADDLE_SPEED *
            (max ((u:ℚ)/((u:ℚ)+(v:ℚ))) ((v:ℚ)/((u:ℚ)+(v:ℚ))) - 1/2) * 2) ∧
        calcPaddleMovement Track.PADDLE_SPEED u v < 0) ∧
      (u < v →
        calcPaddleMovement Track.PADDLE_SPEED u v =
          Track.PADDLE_SPEED *
            (max ((u:ℚ)/((u:ℚ)+(v:ℚ))) ((v:ℚ)/((u:ℚ)+(v:ℚ))) - 1/2) * 2 ∧
        0 < calcPaddleMovement Track.PADDLE_SPEED u v)) ∧
    calcPaddleMovement Server.PADDLE_SPEED 1 0 = -Server.PADDLE_SPEED ∧
    calcPaddleMovement Track.PADDLE_SPEED 1 0 = -Track.PADDLE_SPEED := by
  refine ⟨fun pd => rfl, fun pd => rfl, ?_, ?_, calc_unanimous _, calc_unanimous _⟩
  · intro u v
    exact calc_spec Server.PADDLE_SPEED (by norm_num [Server.PADDLE_SPEED]) u v
  · intro u v
    exact calc_spec Track.PADDLE_SPEED (by norm_num [Track.PADDLE_SPEED]) u v

theorem claim_C6_witness :
    (1:ℕ) < 2 ∧ calcPaddleMovement Server.PADDLE_SPEED 2 1 < 0 :=
  ⟨by norm_num,
   ((claim_C6_displacement_formula.2.2.1 2 1).2.2.1 (by norm_num)).2⟩

/-- Concrete state with score (1,0), used for the round-reset serve
direction claim. -/
def exC1 : Server.GameState :=
  { status := Status.playing
    ball := { x := 600, y := 300, vx := 5, vy := 5 }
    leftPaddle := { y := 240, upVotes := 0, downVotes := 0 }
    rightPaddle := { y := 240, upVotes := 0, downVotes := 0 }
    score := { left := 1, right := 0 }
    round := 2
    ballSpeed := 5
    players := []
    nextPlayerNumber := 1
    recentInputs := []
    pendingResets := 0 }

/-- Claim C1 counterexample: at score (1,0) — both below the winning
threshold, left side leading — the claim requires the serve to point toward
the trailing (right) side, i.e. positive horizontal velocity; the round
reset instead launches the ball with `vx = -5`, toward the leading left
side. -/
theorem claim_C1_counterexample :
    exC1.score.left = 1 ∧ exC1.score.right = 0 ∧
    exC1.score.left < Server.WINNING_SCORE ∧
    exC1.score.right < Server.WINNING_SCORE ∧
    (Server.resetRound (1/2) exC1).ball.vx = -5 ∧
    ¬ 0 < (Server.resetRound (1/2) exC1).ball.vx := by
  refine ⟨rfl, rfl, by decide, by decide, ?_, ?_⟩ <;>
    norm_num [Server.resetRound, Server.resetBall, exC1]

/-- Claim C1 (amended): after a non-final scoring event the round reset
serves toward the side that is LEADING in score (negative `vx`, toward the
left paddle, when the left side is ahead; positive `vx`, toward the right
paddle, otherwise), and toward the right when the scores are tied. -/
theorem claim_C1_amended_serve_direction :
    ∀ (s : Server.GameState) (r : ℚ),
      s.score.left < Server.WINNING_SCORE →
      s.score.right < Server.WINNING_SCORE →
      (s.score.right < s.score.left →
        (Server.resetRound r s).ball.vx = -s.ballSpeed) ∧
      (s.score.left < s.score.right →
        (Server.resetRound r s).ball.vx = s.ballSpeed) ∧
      (s.score.left = s.score.right →
        (Server.resetRound r s).ball.vx = s.ballSpeed) := by
  intro s r h1 h2
  refine ⟨?_, ?_, ?_⟩ <;> intro hcmp <;>
    simp only [Server.resetRound, Server.resetBall] <;> dsimp only
  · rw [if_pos hcmp]
    ring
  · rw [if_neg (by omega)]
    ring
  · rw [if_neg (by omega)]
    ring

theorem claim_C1_witness :
    exC1.score.right < exC1.score.left ∧
    (Server.resetRound (1/2) exC1).ball.vx = -exC1.ballSpeed :=
  ⟨by decide,
   (claim_C1_amended_serve_direction exC1 (1/2) (by decide) (by decide)).1 (by decide)⟩

/-- Playing state with the ball about to cross the left goal line (x = 2,
vx = -5, vertical track y = 50 well away from the paddles), score (0,0), no
pending deferred reset. -/
def exC2 : Server.GameState :=
  { status := Status.playing
    ball := { x := 2, y := 50, vx := -5, vy := 0 }
    leftPaddle := { y := 240, upVotes := 0, downVotes := 0 }
    rightPaddle := { y := 240, upVotes := 0, downVotes := 0 }
    score := { left := 0, right := 0 }
    round := 1
    ballSpeed := 5
    players := []
    nextPlayerNumber := 1
    recentInputs := []
    pendingResets := 0 }

/-- Claim C2 counterexample: two consecutive scoring ticks leave TWO
deferred round-resets outstanding (the pending callback is stacked, not
replaced), and an admin reset does not cancel the pending one — it is still
outstanding afterwards and firing it mutates the state the admin reset
installed (the serve velocity flips from -5 to 5). -/
theorem claim_C2_counterexample :
    (Server.tick exC2).pendingResets = 1 ∧
    (Server.tick (Server.tick exC2)).pendingResets = 2 ∧
    (Server.adminReset (1/2) (1/2) false (Server.tick exC2)).pendingResets = 1 ∧
    (Server.adminReset (1/2) (1/2) false (Server.tick exC2)).status = Status.waiting ∧
    (Server.adminReset (1/2) (1/2) false (Server.tick exC2)).ball.vx = -5 ∧
    (Server.fireReset (1/2)
      (Server.adminReset (1/2) (1/2) false (Server.tick exC2))).ball.vx = 5 := by
  have h1 : Server.tick exC2 =
      { status := Status.playing
        ball := { x := -3, y := 50, vx := -5, vy := 0 }
        leftPaddle := { y := 240, upVotes := 0, downVotes := 0 }
        rightPaddle := { y := 240, upVotes := 0, downVotes := 0 }
        score := { left := 0, right := 1 }
        round := 2
        ballSpeed := 11/2
        players := []
        nextPlayerNumber := 1
        recentInputs := []
        pendingResets := 1 } := by
    norm_num [Server.tick, Server.calculatePaddleMovement, calcPaddleMovement,
      clamp, exC2, Server.CANVAS_HEIGHT, Server.CANVAS_WIDTH, Server.PADDLE_HEIGHT,
      Server.PADDLE_WIDTH, Server.BALL_SIZE, Server.WINNING_SCORE,
      Server.INITIAL_BALL_SPEED, Server.SPEED_INCREMENT]
  rw [h1]
  have h2 : Server.tick
      { status := Status.playing
        ball := { x := -3, y := 50, vx := -5, vy := 0 }
        leftPaddle := { y := 240, upVotes := 0, downVotes := 0 }
        rightPaddle := { y := 240, upVotes := 0, downVotes := 0 }
        score := { left := 0, right := 1 }
        round := 2
        ballSpeed := 11/2
        players := []
        nextPlayerNumber := 1
        recentInputs := []
        pendingResets := 1 } =
      { status := Status.playing
        ball := { x := -8, y := 50, vx := -5, vy := 0 }
        leftPaddle := { y := 240, upVotes := 0, downVotes := 0 }
        rightPaddle := { y := 240, upVotes := 0, downVotes := 0 }
        score := { left := 0, right := 2 }
        round := 3
        ballSpeed := 6
        players := []
        nextPlayerNumber := 1
        recentInputs := []
        pendingResets := 2 } := by
    norm_num [Server.tick, Server.calculatePaddleMovement, calcPaddleMovement,
      clamp, Server.CANVAS_HEIGHT, Server.CANVAS_WIDTH, Server.PADDLE_HEIGHT,
      Server.PADDLE_WIDTH, Server.BALL_SIZE, Server.WINNING_SCORE,
      Server.INITIAL_BALL_SPEED, Server.SPEED_INCREMENT]
  rw [h2]
  refine ⟨rfl, rfl, rfl, rfl, ?_, ?_⟩ <;>
    norm_num [Server.adminReset, Server.resetGame, Server.resetRound,
      Server.resetBall, Server.fireReset, Server.CANVAS_HEIGHT,
      Server.CANVAS_WIDTH, Server.PADDLE_HEIGHT, Server.INITIAL_BALL_SPEED]

/-- Claim C2 (amended): the deferred round-reset is a bare `setTimeout`
that nothing cancels or replaces: admin `reset`/`start` leave every pending
deferred reset outstanding, each additional non-final scoring tick adds one
more outstanding deferred reset on top of those already pending, and a
pending reset that fires runs `resetRound` unconditionally (whatever the
current status), so a stale round-reset can fire after an admin reset. -/
theorem claim_C2_amended_resets_stack :
    (∀ (s : Server.GameState) (r1 r2 : ℚ) (coin : Bool),
      (Server.adminReset r1 r2 coin s).pendingResets = s.pendingResets ∧
      (Server.adminStart r1 r2 coin s).pendingResets = s.pendingResets) ∧
    (∀ s : Server.GameState,
      s.status = Status.playing →
      s.ball.x + s.ball.vx ≤ 0 →
      s.score.right + 1 < Server.WINNING_SCORE →
      s.score.left < Server.WINNING_SCORE →
      (Server.tick s).pendingResets = s.pendingResets + 1) ∧
    (∀ (s : Server.GameState) (r : ℚ),
      0 < s.pendingResets →
      Server.fireReset r s =
        Server.resetRound r { s with pendingResets := s.pendingResets - 1 }) := by
  refine ⟨?_, ?_, ?_⟩
  · intro s r1 r2 coin
    constructor
    · rfl
    · unfold Server.adminStart
      by_cases hc : s.status = Status.waiting ∨ s.status = Status.finished
      · rw [if_pos hc]
        rfl
      · rw [if_neg hc]
  · intro s hst hx h3 h4
    simp only [Server.WINNING_SCORE] at h3 h4
    have hwin : ¬ ((7:ℕ) ≤ s.score.left ∨ (7:ℕ) ≤ s.score.right + 1) := by omega
    unfold Server.tick
    rw [if_neg (by simp [hst])]
    simp [hx, hwin, Server.WINNING_SCORE]
    omega
  · intro s r hp
    unfold Server.fireReset
    rw [if_neg (by omega)]

theorem claim_C2_witness :
    exC2.status = Status.playing ∧
    (Server.tick exC2).pendingResets = exC2.pendingResets + 1 :=
  ⟨rfl,
   claim_C2_amended_resets_stack.2.1 exC2 rfl (by norm_num [exC2]) (by decide) (by decide)⟩

namespace Server

theorem addVote_other (tag : ℕ) (pd : Paddle) :
    addVote (InputVal.other tag) pd = pd := by
  simp [addVote]

end Server

theorem head?_dropLast_cons {β : Type} (a : β) (l : List β) (h : l ≠ []) :
    ((a :: l).dropLast).head? = some a := by
  cases l with
  | nil => cases h rfl
  | cons b l2 => simp

/-- State with one participant (number 1, right team) holding an `up` vote
counted in the right paddle's tally. -/
def exC3 : Server.GameState :=
  { status := Status.playing
    ball := { x := 600, y := 300, vx := 5, vy := 5 }
    leftPaddle := { y := 240, upVotes := 0, downVotes := 0 }
    rightPaddle := { y := 240, upVotes := 1, downVotes := 0 }
    score := { left := 0, right := 0 }
    round := 1
    ballSpeed := 5
    players := [(1, { number := 1, team := Side.right,
                      lastInput := some InputVal.up, inputTime := some 0 })]
    nextPlayerNumber := 2
    recentInputs := []
    pendingResets := 0 }

/-- Claim C3 counterexample: a vote event with a malformed direction (a
truthy value outside up/down) is NOT a no-op: for the participant of `exC3`
it overwrites the recorded direction with the malformed value, decrements
the right paddle's up tally from 1 to 0 (retracting the prior vote without
adding a new one), and appends an entry to the recent-input log. -/
theorem claim_C3_counterexample :
    findKey 1 exC3.players =
      some { number := 1, team := Side.right,
             lastInput := some InputVal.up, inputTime := some 0 } ∧
    exC3.rightPaddle.upVotes = 1 ∧
    (Server.playerInput 1 (InputVal.other 0) 5 exC3).rightPaddle.upVotes = 0 ∧
    findKey 1 (Server.playerInput 1 (InputVal.other 0) 5 exC3).players =
      some { number := 1, team := Side.right,
             lastInput := some (InputVal.other 0), inputTime := some 5 } ∧
    exC3.recentInputs = [] ∧
    (Server.playerInput 1 (InputVal.other 0) 5 exC3).recentInputs =
      [{ number := 1, direction := InputVal.other 0,
         team := Side.right, timestamp := 5 }] := by
  refine ⟨rfl, rfl, ?_, ?_, rfl, ?_⟩ <;> decide

/-- Claim C3 (amended): a vote event whose direction is outside up/down is
not counted as a vote (no tally is incremented) but it is not ignored
either: the handler records the malformed value as the participant's
current direction (with the new timestamp), retracts the participant's
previous vote from their team paddle's tally, and pushes the event onto the
recent-input log. -/
theorem claim_C3_amended_malformed_not_ignored :
    ∀ (s : Server.GameState) (k : ℕ) (p : Server.Player) (now tag : ℕ),
      findKey k s.players = some p →
      findKey k (Server.playerInput k (InputVal.other tag) now s).players =
        some { p with lastInput := some (InputVal.other tag),
                      inputTime := some now } ∧
      Server.tallies (Server.playerInput k (InputVal.other tag) now s) =
        (s.leftPaddle.upVotes -
           (if p.team = Side.left ∧ p.lastInput = some InputVal.up then 1 else 0),
         s.leftPaddle.downVotes -
           (if p.team = Side.left ∧ p.lastInput = some InputVal.down then 1 else 0),
         s.rightPaddle.upVotes -
           (if p.team = Side.right ∧ p.lastInput = some InputVal.up then 1 else 0),
         s.rightPaddle.downVotes -
           (if p.team = Side.right ∧ p.lastInput = some InputVal.down then 1 else 0)) ∧
      (Server.playerInput k (InputVal.other tag) now s).recentInputs.head? =
        some { number := p.number, direction := InputVal.other tag,
               team := p.team, timestamp := now } := by
  intro s k p now tag hf
  refine ⟨?_, ?_, ?_⟩
  · rw [Server.playerInput_players _ _ hf, findKey_updateKey_self, hf]
    rfl
  · rcases ht : p.team with _ | _
    · have e1 := Server.playerInput_leftPaddle_left (InputVal.other tag) now hf ht
      have e2 := Server.playerInput_rightPaddle_left (InputVal.other tag) now hf ht
      simp [Server.tallies, e1, e2, Server.addVote_other,
        Server.retract_upVotes, Server.retract_downVotes, ht]
      refine ⟨?_, ?_⟩ <;> split <;> simp
    · have e1 := Server.playerInput_leftPaddle_right (InputVal.other tag) now hf ht
      have e2 := Server.playerInput_rightPaddle_right (InputVal.other tag) now hf ht
      simp [Server.tallies, e1, e2, Server.addVote_other,
        Server.retract_upVotes, Server.retract_downVotes, ht]
      refine ⟨?_, ?_⟩ <;> split <;> simp
  · have hri : (Server.playerInput k (InputVal.other tag) now s).recentInputs =
        (if Server.maxRecentInputs <
            ({ number := p.number, direction := InputVal.other tag,
               team := p.team, timestamp := now } :: s.recentInputs).length
         then ({ number := p.number, direction := InputVal.other tag,
                 team := p.team, timestamp := now } :: s.recentInputs).dropLast
         else ({ number := p.number, direction := InputVal.other tag,
                 team := p.team, timestamp := now } :: s.recentInputs)) := by
      rcases ht : p.team with _ | _ <;> simp only [Server.playerInput, hf, ht]
    rw [hri]
    by_cases hlen : Server.maxRecentInputs <
        ({ number := p.number, direction := InputVal.other tag,
           team := p.team, timestamp := now } :: s.recentInputs).length
    · rw [if_pos hlen]
      apply head?_dropLast_cons
      intro hnil
      rw [hnil] at hlen
      simp [Server.maxRecentInputs] at hlen
    · rw [if_neg hlen]
      rfl

theorem claim_C3_witness :
    findKey 1 exC3.players =
      some { number := 1, team := Side.right,
             lastInput := some InputVal.up, inputTime := some 0 } ∧
    (Server.playerInput 1 (InputVal.other 0) 5 exC3).recentInputs.head? =
      some { number := 1, direction := InputVal.other 0,
             team := Side.right, timestamp := 5 } :=
  ⟨rfl, (claim_C3_amended_malformed_not_ignored exC3 1
    { number := 1, team := Side.right,
      lastInput := some InputVal.up, inputTime := some 0 } 5 0 rfl).2.2⟩

/-- State with two right-team participants (numbers 1 and 3) holding no
votes, zero tallies. -/
def exC10 : Server.GameState :=
  { status := Status.playing
    ball := { x := 600, y := 300, vx := 5, vy := 5 }
    leftPaddle := { y := 240, upVotes := 0, downVotes := 0 }
    rightPaddle := { y := 240, upVotes := 0, downVotes := 0 }
    score := { left := 0, right := 0 }
    round := 1
    ballSpeed := 5
    players := [(1, { number := 1, team := Side.right,
                      lastInput := none, inputTime := none }),
                (3, { number := 3, team := Side.right,
                      lastInput := none, inputTime := none })]
    nextPlayerNumber := 4
    recentInputs := []
    pendingResets := 0 }

/-- Claim C10: `resetRound` zeroes the four tallies but leaves every
participant's held direction in place; afterwards, participant 1 (still
holding a pre-reset `up`) releasing after participant 3 casts a post-reset
`up` decrements the fresh tally, leaving the right paddle's up tally at 0
while one present participant (number 3) still holds `up` — the
tally-equals-holders invariant is not preserved across round resets. -/
theorem claim_C10_reset_breaks_tally :
    (Server.resetRound (1/2)
       (Server.playerInput 1 Dir.up.toInput 0 exC10)).rightPaddle.upVotes = 0 ∧
    findKey 1 (Server.resetRound (1/2)
       (Server.playerInput 1 Dir.up.toInput 0 exC10)).players =
      some { number := 1, team := Side.right,
             lastInput := some InputVal.up, inputTime := some 0 } ∧
    (Server.playerRelease 1 (Server.playerInput 3 Dir.up.toInput 1
       (Server.resetRound (1/2)
         (Server.playerInput 1 Dir.up.toInput 0 exC10)))).rightPaddle.upVotes = 0 ∧
    countP (Server.contributes Side.right Dir.up)
      (Server.playerRelease 1 (Server.playerInput 3 Dir.up.toInput 1
        (Server.resetRound (1/2)
          (Server.playerInput 1 Dir.up.toInput 0 exC10)))).players = 1 := by
  refine ⟨?_, ?_, ?_, ?_⟩ <;> decide

/-- Fixed-team state, playing, left paddle off-center at y = 100 with no
votes, ball mid-air away from walls, paddles and goals. -/
def exC7 : Server.GameState :=
  { status := Status.playing
    ball := { x := 600, y := 300, vx := 5, vy := 0 }
    leftPaddle := { y := 100, upVotes := 0, downVotes := 0 }
    rightPaddle := { y := 240, upVotes := 0, downVotes := 0 }
    score := { left := 0, right := 0 }
    round := 1
    ballSpeed := 5
    players := []
    nextPlayerNumber := 1
    recentInputs := []
    pendingResets := 0 }

/-- Claim C7 counterexample: in the fixed-team variant a paddle that does
not move from votes does NOT ease toward center: with zero votes and
y = 100 the left paddle stays at 100 after a tick, instead of moving 2% of
the remaining distance to center (100 + (240-100)*0.02 = 102.8). -/
theorem claim_C7_counterexample :
    exC7.leftPaddle.upVotes = 0 ∧
    exC7.leftPaddle.downVotes = 0 ∧
    (Server.tick exC7).leftPaddle.y = 100 ∧
    (Server.tick exC7).leftPaddle.y ≠ 100 + (240 - 100) * (2/100) := by
  have h : (Server.tick exC7).leftPaddle.y = 100 := by
    norm_num [Server.tick, Server.calculatePaddleMovement, calcPaddleMovement,
      clamp, exC7, Server.CANVAS_HEIGHT, Server.CANVAS_WIDTH, Server.PADDLE_HEIGHT,
      Server.PADDLE_WIDTH, Server.BALL_SIZE, Server.WINNING_SCORE,
      Server.INITIAL_BALL_SPEED, Server.SPEED_INCREMENT]
  refine ⟨rfl, rfl, h, ?_⟩
  rw [h]
  norm_num

/-- Claim C7 (amended): only the ball-tracking variant eases, and only the
INACTIVE paddle (the one on the side the ball is not on): that paddle moves
exactly 2% of its remaining distance to vertical center per tick and never
snaps to center; the active paddle with no votes, and every non-moving
paddle of the fixed-team variant, simply stays in place. -/
theorem claim_C7_amended_easing :
    (∀ s : Track.GameState, s.status = Status.playing →
      s.ball.x < Track.CANVAS_WIDTH / 2 →
      0 ≤ s.rightPaddle.y →
      s.rightPaddle.y ≤ Track.CANVAS_HEIGHT - Track.PADDLE_HEIGHT →
      (Track.tick s).rightPaddle.y =
        s.rightPaddle.y +
          ((Track.CANVAS_HEIGHT / 2 - Track.PADDLE_HEIGHT / 2) - s.rightPaddle.y) *
            (2/100) ∧
      (s.rightPaddle.y ≠ Track.CANVAS_HEIGHT / 2 - Track.PADDLE_HEIGHT / 2 →
        (Track.tick s).rightPaddle.y ≠
          Track.CANVAS_HEIGHT / 2 - Track.PADDLE_HEIGHT / 2)) ∧
    (∀ s : Track.GameState, s.status = Status.playing →
      ¬ s.ball.x < Track.CANVAS_WIDTH / 2 →
      0 ≤ s.leftPaddle.y →
      s.leftPaddle.y ≤ Track.CANVAS_HEIGHT - Track.PADDLE_HEIGHT →
      (Track.tick s).leftPaddle.y =
        s.leftPaddle.y +
          ((Track.CANVAS_HEIGHT / 2 - Track.PADDLE_HEIGHT / 2) - s.leftPaddle.y) *
            (2/100) ∧
      (s.leftPaddle.y ≠ Track.CANVAS_HEIGHT / 2 - Track.PADDLE_HEIGHT / 2 →
        (Track.tick s).leftPaddle.y ≠
          Track.CANVAS_HEIGHT / 2 - Track.PADDLE_HEIGHT / 2)) ∧
    (∀ s : Server.GameState, s.status = Status.playing →
      s.leftPaddle.upVotes = 0 → s.leftPaddle.downVotes = 0 →
      0 ≤ s.leftPaddle.y →
      s.leftPaddle.y ≤ Server.CANVAS_HEIGHT - Server.PADDLE_HEIGHT →
      (Server.tick s).leftPaddle.y = s.leftPaddle.y) ∧
    (∀ s : Track.GameState, s.status = Status.playing →
      s.ball.x < Track.CANVAS_WIDTH / 2 →
      s.leftPaddle.upVotes = 0 → s.leftPaddle.downVotes = 0 →
      0 ≤ s.leftPaddle.y →
      s.leftPaddle.y ≤ Track.CANVAS_HEIGHT - Track.PADDLE_HEIGHT →
      (Track.tick s).leftPaddle.y = s.leftPaddle.y) := by
  refine ⟨?_, ?_, ?_, ?_⟩
  · intro s hst hx h0 h1
    simp only [Track.CANVAS_HEIGHT, Track.PADDLE_HEIGHT] at h0 h1 ⊢
    norm_num
    unfold Track.tick
    rw [if_neg (by simp [hst])]
    simp only [hx, ite_true, if_true]
    simp [clamp, Track.CANVAS_HEIGHT, Track.PADDLE_HEIGHT]
    constructor
    · rw [min_eq_right (by linarith), max_eq_right (by linarith)]
      ring
    · intro hne
      rw [min_eq_right (by linarith), max_eq_right (by linarith)]
      intro hcontra
      apply hne
      linarith
  · intro s hst hx h0 h1
    simp only [Track.CANVAS_HEIGHT, Track.PADDLE_HEIGHT] at h0 h1 ⊢
    norm_num
    unfold Track.tick
    rw [if_neg (by simp [hst])]
    simp only [hx, ite_false, if_false]
    simp [clamp, Track.CANVAS_HEIGHT, Track.PADDLE_HEIGHT]
    constructor
    · rw [min_eq_right (by linarith), max_eq_right (by linarith)]
      ring
    · intro hne
      rw [min_eq_right (by linarith), max_eq_right (by linarith)]
      intro hcontra
      apply hne
      linarith
  · intro s hst hu hd h0 h1
    unfold Server.tick
    rw [if_neg (by simp [hst])]
    simp [clamp, Server.calculatePaddleMovement, calcPaddleMovement, hu, hd,
      Server.CANVAS_HEIGHT, Server.PADDLE_HEIGHT] at h0 h1 ⊢
    rw [min_eq_right h1, max_eq_right h0]
  · intro s hst hx hu hd h0 h1
    unfold Track.tick
    rw [if_neg (by simp [hst])]
    simp only [hx, ite_true, if_true]
    simp [clamp, Track.calculatePaddleMovement, calcPaddleMovement, hu, hd,
      Track.CANVAS_HEIGHT, Track.PADDLE_HEIGHT] at h0 h1 ⊢
    rw [min_eq_right h1, max_eq_right h0]

/-- Ball-tracking state with the ball on the left half and the right
(inactive) paddle off-center at y = 100. -/
def exC7t : Track.GameState :=
  { status := Status.playing
    ball := { x := 100, y := 300, vx := 3, vy := 0 }
    leftPaddle := { y := 240, upVotes := 0, downVotes := 0 }
    rightPaddle := { y := 100, upVotes := 0, downVotes := 0 }
    score := { left := 0, right := 0 }
    ballSpeed := 3
    activePaddle := Side.right
    players := []
    nextPlayerNumber := 1
    recentInputs := []
    pendingResets := 0 }

theorem claim_C7_witness :
    exC7t.status = Status.playing ∧
    (Track.tick exC7t).rightPaddle.y =
      exC7t.rightPaddle.y +
        ((Track.CANVAS_HEIGHT / 2 - Track.PADDLE_HEIGHT / 2) - exC7t.rightPaddle.y) *
          (2/100) :=
  ⟨rfl,
   (claim_C7_amended_easing.1 exC7t rfl
     (by norm_num [exC7t, Track.CANVAS_WIDTH])
     (by norm_num [exC7t])
     (by norm_num [exC7t, Track.CANVAS_HEIGHT, Track.PADDLE_HEIGHT])).1⟩

namespace Server

theorem tick_eq_of_not_playing {s : GameState} (h : s.status ≠ Status.playing) :
    tick s = s := by
  unfold tick
  rw [if_pos h]

theorem tick_score (s : GameState) (hst : s.status = Status.playing) :
    (tick s).score =
      (if s.ball.x + s.ball.vx ≤ 0 then { s.score with right := s.score.right + 1 }
       else if s.ball.x + s.ball.vx ≥ CANVAS_WIDTH then
         { s.score with left := s.score.left + 1 }
       else s.score) := by
  unfold tick
  rw [if_neg (by simp [hst])]

theorem playerRelease_frame (k : ℕ) (s : GameState) :
    (playerRelease k s).status = s.status ∧ (playerRelease k s).ball = s.ball ∧
    (playerRelease k s).leftPaddle.y = s.leftPaddle.y ∧
    (playerRelease k s).rightPaddle.y = s.rightPaddle.y := by
  rcases hf : findKey k s.players with _ | p
  · simp [playerRelease, hf]
  · rcases hli : p.lastInput with _ | li
    · simp [playerRelease, hf, hli]
    · rcases ht : p.team with _ | _ <;> refine ⟨?_, ?_, ?_, ?_⟩ <;>
        simp only [playerRelease, hf, hli, ht] <;> (try rw [retract_y])

theorem disconnect_frame (k : ℕ) (s : GameState) :
    (disconnect k s).status = s.status ∧ (disconnect k s).ball = s.ball ∧
    (disconnect k s).leftPaddle.y = s.leftPaddle.y ∧
    (disconnect k s).rightPaddle.y = s.rightPaddle.y := by
  rcases hf : findKey k s.players with _ | p
  · simp [disconnect, hf]
  · rcases ht : p.team with _ | _ <;> refine ⟨?_, ?_, ?_, ?_⟩ <;>
      simp only [disconnect, hf, ht] <;> (try rw [retract_y])

end Server

/-- Claim C8 (amended): reaching the winning score (7) transitions status
to finished; every subsequent tick is an exact no-op, and every other event
except admin start, admin reset, and a STALE deferred round-reset preserves
the terminal ball and paddle positions; but a deferred round-reset
scheduled by an earlier goal that is still pending when the match finishes
will, on firing, re-center the ball and paddles despite the finished
status (status itself stays finished). -/
theorem claim_C8_amended_finished_frozen :
    (∀ s : Server.GameState, s.status = Status.finished → Server.tick s = s) ∧
    (∀ s : Server.GameState, s.status = Status.playing →
      s.score.left < Server.WINNING_SCORE →
      s.score.right < Server.WINNING_SCORE →
      (Server.WINNING_SCORE ≤ (Server.tick s).score.left ∨
        Server.WINNING_SCORE ≤ (Server.tick s).score.right) →
      (Server.tick s).status = Status.finished) ∧
    (∀ (s : Server.GameState) (e : Server.Event), s.status = Status.finished →
      (∀ r, e ≠ Server.Event.fireReset r) →
      (∀ r1 r2 c, e ≠ Server.Event.start r1 r2 c) →
      (∀ r1 r2 c, e ≠ Server.Event.reset r1 r2 c) →
      (Server.step e s).status = Status.finished ∧
      (Server.step e s).ball = s.ball ∧
      (Server.step e s).leftPaddle.y = s.leftPaddle.y ∧
      (Server.step e s).rightPaddle.y = s.rightPaddle.y) ∧
    (∀ (s : Server.GameState) (r : ℚ), s.status = Status.finished →
      0 < s.pendingResets →
      (Server.fireReset r s).status = Status.finished ∧
      (Server.fireReset r s).ball.x = Server.CANVAS_WIDTH / 2 ∧
      (Server.fireReset r s).ball.y = Server.CANVAS_HEIGHT / 2 ∧
      (Server.fireReset r s).leftPaddle.y =
        Server.CANVAS_HEIGHT / 2 - Server.PADDLE_HEIGHT / 2 ∧
      (Server.fireReset r s).rightPaddle.y =
        Server.CANVAS_HEIGHT / 2 - Server.PADDLE_HEIGHT / 2) := by
  refine ⟨?_, ?_, ?_, ?_⟩
  · intro s h
    exact Server.tick_eq_of_not_playing (by simp [h])
  · intro s hst hl hr hpost
    rw [Server.tick_score s hst] at hpost
    unfold Server.tick
    rw [if_neg (by simp [hst])]
    by_cases h1 : s.ball.x + s.ball.vx ≤ 0
    · simp only [h1, ite_true, if_true] at hpost ⊢
      simp only [Server.WINNING_SCORE] at hpost hl hr ⊢
      simp at hpost ⊢
      intro ha hb
      omega
    · by_cases h2 : s.ball.x + s.ball.vx ≥ Server.CANVAS_WIDTH
      · simp only [h1, h2, ite_true, ite_false, if_true, if_false] at hpost ⊢
        simp only [Server.WINNING_SCORE] at hpost hl hr ⊢
        simp at hpost ⊢
        intro ha hb
        omega
      · simp only [h1, h2, ite_false, if_false] at hpost
        simp only [Server.WINNING_SCORE] at hpost hl hr
        omega
  · intro s e hst hne1 hne2 hne3
    cases e with
    | tick =>
      rw [show Server.step Server.Event.tick s = Server.tick s from rfl,
        Server.tick_eq_of_not_playing (by simp [hst])]
      exact ⟨hst, rfl, rfl, rfl⟩
    | fireReset r => exact absurd rfl (hne1 r)
    | join =>
      refine ⟨?_, rfl, rfl, rfl⟩
      rw [show (Server.step Server.Event.join s).status = s.status from rfl, hst]
    | input k d now =>
      refine ⟨?_, ?_, ?_, ?_⟩
      · rw [show Server.step (Server.Event.input k d now) s =
            Server.playerInput k d now s from rfl, Server.playerInput_status, hst]
      · exact Server.playerInput_ball k d now s
      · exact Server.playerInput_leftPaddle_y k d now s
      · exact Server.playerInput_rightPaddle_y k d now s
    | release k =>
      have h := Server.playerRelease_frame k s
      exact ⟨by rw [show Server.step (Server.Event.release k) s =
        Server.playerRelease k s from rfl, h.1, hst], h.2.1, h.2.2.1, h.2.2.2⟩
    | disconnect k =>
      have h := Server.disconnect_frame k s
      exact ⟨by rw [show Server.step (Server.Event.disconnect k) s =
        Server.disconnect k s from rfl, h.1, hst], h.2.1, h.2.2.1, h.2.2.2⟩
    | pause =>
      rw [show Server.step Server.Event.pause s = Server.adminPause s from rfl]
      unfold Server.adminPause
      rw [if_neg (by simp [hst])]
      exact ⟨hst, rfl, rfl, rfl⟩
    | resume =>
      rw [show Server.step Server.Event.resume s = Server.adminResume s from rfl]
      unfold Server.adminResume
      rw [if_neg (by simp [hst])]
      exact ⟨hst, rfl, rfl, rfl⟩
    | start r1 r2 c => exact absurd rfl (hne2 r1 r2 c)
    | reset r1 r2 c => exact absurd rfl (hne3 r1 r2 c)
    | resetPlayers =>
      refine ⟨?_, rfl, rfl, rfl⟩
      rw [show (Server.step Server.Event.resetPlayers s).status = s.status from rfl, hst]
  · intro s r hst hp
    unfold Server.fireReset
    rw [if_neg (by omega)]
    refine ⟨?_, rfl, rfl, rfl, rfl⟩
    rw [show (Server.resetRound r { s with pendingResets := s.pendingResets - 1 }).status
      = s.status from rfl, hst]

/-- Playing state at score (0,5) with the ball two ticks away from crossing
the left goal line. -/
def exC8 : Server.GameState :=
  { status := Status.playing
    ball := { x := 7, y := 50, vx := -5, vy := 0 }
    leftPaddle := { y := 240, upVotes := 0, downVotes := 0 }
    rightPaddle := { y := 240, upVotes := 0, downVotes := 0 }
    score := { left := 0, right := 5 }
    round := 6
    ballSpeed := 5
    players := []
    nextPlayerNumber := 1
    recentInputs := []
    pendingResets := 0 }

/-- Claim C8 counterexample: from `exC8`, the goal at score 5→6 schedules a
deferred reset, the very next tick scores again (6→7) and finishes the
match with that reset still pending (terminal ball x = -8); when the stale
reset fires — with no admin start or reset — the ball is re-centered to
x = 600, and subsequent ticks then show the ball away from its terminal
position, contradicting the claim that positions stay at their terminal
values until an explicit start/reset. -/
theorem claim_C8_counterexample :
    (Server.tick (Server.tick (Server.tick exC8))).status = Status.finished ∧
    (Server.tick (Server.tick (Server.tick exC8))).ball.x = -8 ∧
    (Server.tick (Server.tick (Server.tick exC8))).pendingResets = 1 ∧
    (Server.fireReset (1/2)
      (Server.tick (Server.tick (Server.tick exC8)))).status = Status.finished ∧
    (Server.fireReset (1/2)
      (Server.tick (Server.tick (Server.tick exC8)))).ball.x = 600 ∧
    (Server.tick (Server.fireReset (1/2)
      (Server.tick (Server.tick (Server.tick exC8))))).ball.x = 600 := by
  have h1 : Server.tick exC8 =
      { status := Status.playing
        ball := { x := 2, y := 50, vx := -5, vy := 0 }
        leftPaddle := { y := 240, upVotes := 0, downVotes := 0 }
        rightPaddle := { y := 240, upVotes := 0, downVotes := 0 }
        score := { left := 0, right := 5 }
        round := 6
        ballSpeed := 5
        players := []
        nextPlayerNumber := 1
        recentInputs := []
        pendingResets := 0 } := by
    norm_num [Server.tick, Server.calculatePaddleMovement, calcPaddleMovement,
      clamp, exC8, Server.CANVAS_HEIGHT, Server.CANVAS_WIDTH, Server.PADDLE_HEIGHT,
      Server.PADDLE_WIDTH, Server.BALL_SIZE, Server.WINNING_SCORE,
      Server.INITIAL_BALL_SPEED, Server.SPEED_INCREMENT]
  rw [h1]
  have h2 : Server.tick
      { status := Status.playing
        ball := { x := 2, y := 50, vx := -5, vy := 0 }
        leftPaddle := { y := 240, upVotes := 0, downVotes := 0 }
        rightPaddle := { y := 240, upVotes := 0, downVotes := 0 }
        score := { left := 0, right := 5 }
        round := 6
        ballSpeed := 5
        players := []
        nextPlayerNumber := 1
        recentInputs := []
        pendingResets := 0 } =
      { status := Status.playing
        ball := { x := -3, y := 50, vx := -5, vy := 0 }
        leftPaddle := { y := 240, upVotes := 0, downVotes := 0 }
        rightPaddle := { y := 240, upVotes := 0, downVotes := 0 }
        score := { left := 0, right := 6 }
        round := 7
        ballSpeed := 8
        players := []
        nextPlayerNumber := 1
        recentInputs := []
        pendingResets := 1 } := by
    norm_num [Server.tick, Server.calculatePaddleMovement, calcPaddleMovement,
      clamp, Server.CANVAS_HEIGHT, Server.CANVAS_WIDTH, Server.PADDLE_HEIGHT,
      Server.PADDLE_WIDTH, Server.BALL_SIZE, Server.WINNING_SCORE,
      Server.INITIAL_BALL_SPEED, Server.SPEED_INCREMENT]
  rw [h2]
  have h3 : Server.tick
      { status := Status.playing
        ball := { x := -3, y := 50, vx := -5, vy := 0 }
        leftPaddle := { y := 240, upVotes := 0, downVotes := 0 }
        rightPaddle := { y := 240, upVotes := 0, downVotes := 0 }
        score := { left := 0, right := 6 }
        round := 7
        ballSpeed := 8
        players := []
        nextPlayerNumber := 1
        recentInputs := []
        pendingResets := 1 } =
      { status := Status.finished
        ball := { x := -8, y := 50, vx := -5, vy := 0 }
        leftPaddle := { y := 240, upVotes := 0, downVotes := 0 }
        rightPaddle := { y := 240, upVotes := 0, downVotes := 0 }
        score := { left := 0, right := 7 }
        round := 8
        ballSpeed := 17/2
        players := []
        nextPlayerNumber := 1
        recentInputs := []
        pendingResets := 1 } := by
    norm_num [Server.tick, Server.calculatePaddleMovement, calcPaddleMovement,
      clamp, Server.CANVAS_HEIGHT, Server.CANVAS_WIDTH, Server.PADDLE_HEIGHT,
      Server.PADDLE_WIDTH, Server.BALL_SIZE, Server.WINNING_SCORE,
      Server.INITIAL_BALL_SPEED, Server.SPEED_INCREMENT]
  rw [h3]
  have h4 : Server.fireReset (1/2)
      { status := Status.finished
        ball := { x := -8, y := 50, vx := -5, vy := 0 }
        leftPaddle := { y := 240, upVotes := 0, downVotes := 0 }
        rightPaddle := { y := 240, upVotes := 0, downVotes := 0 }
        score := { left := 0, right := 7 }
        round := 8
        ballSpeed := 17/2
        players := []
        nextPlayerNumber := 1
        recentInputs := []
        pendingResets := 1 } =
      { status := Status.finished
        ball := { x := 600, y := 300, vx := 17/2, vy := 0 }
        leftPaddle := { y := 240, upVotes := 0, downVotes := 0 }
        rightPaddle := { y := 240, upVotes := 0, downVotes := 0 }
        score := { left := 0, right := 7 }
        round := 8
        ballSpeed := 17/2
        players := []
        nextPlayerNumber := 1
        recentInputs := []
        pendingResets := 0 } := by
    norm_num [Server.fireReset, Server.resetRound, Server.resetBall,
      Server.CANVAS_HEIGHT, Server.CANVAS_WIDTH, Server.PADDLE_HEIGHT]
  rw [h4]
  have h5 := Server.tick_eq_of_not_playing
    (s := { status := Status.finished
            ball := { x := 600, y := 300, vx := 17/2, vy := 0 }
            leftPaddle := { y := 240, upVotes := 0, downVotes := 0 }
            rightPaddle := { y := 240, upVotes := 0, downVotes := 0 }
            score := { left := 0, right := 7 }
            round := 8
            ballSpeed := 17/2
            players := []
            nextPlayerNumber := 1
            recentInputs := []
            pendingResets := 0 }) (by simp)
  rw [h5]
  exact ⟨rfl, rfl, rfl, rfl, rfl, rfl⟩

/-- Finished state used to witness the frozen-after-finish claim. -/
def exC8fin : Server.GameState :=
  { status := Status.finished
    ball := { x := -8, y := 50, vx := -5, vy := 0 }
    leftPaddle := { y := 240, upVotes := 0, downVotes := 0 }
    rightPaddle := { y := 240, upVotes := 0, downVotes := 0 }
    score := { left := 0, right := 7 }
    round := 8
    ballSpeed := 17/2
    players := []
    nextPlayerNumber := 1
    recentInputs := []
    pendingResets := 1 }

theorem claim_C8_witness :
    Server.tick exC8fin = exC8fin ∧
    (Server.step Server.Event.join exC8fin).status = Status.finished ∧
    (Server.step Server.Event.join exC8fin).ball = exC8fin.ball ∧
    (Server.fireReset (1/2) exC8fin).status = Status.finished ∧
    (Server.fireReset (1/2) exC8fin).ball.x = Server.CANVAS_WIDTH / 2 := by
  have hj := claim_C8_amended_finished_frozen.2.2.1 exC8fin Server.Event.join rfl
    (fun r h => Server.Event.noConfusion h)
    (fun r1 r2 c h => Server.Event.noConfusion h)
    (fun r1 r2 c h => Server.Event.noConfusion h)
  have hf := claim_C8_amended_finished_frozen.2.2.2 exC8fin (1/2) rfl (by decide)
  exact ⟨claim_C8_amended_finished_frozen.1 exC8fin rfl, hj.1, hj.2.1, hf.1, hf.2.1⟩

theorem tickBallX (s : Server.GameState) (hst : s.status = Status.playing) :
    (Server.tick s).ball.x = s.ball.x + s.ball.vx := by
  unfold Server.tick
  rw [if_neg (by simp [hst])]

/-- Claim C9: while the match stays playing and the ball's x position stays
out past the left goal line, the score detection fires again on EVERY tick
(the ball is never repositioned by the tick itself), so a single goal
crossing yields one score increment per tick; concretely, from score (0,0)
with the ball about to cross, seven consecutive ticks drive the right score
from 0 to 7 and finish the match. -/
theorem claim_C9_repeated_goal_detection :
    (∀ s : Server.GameState, s.status = Status.playing →
      s.ball.x + s.ball.vx ≤ 0 →
      (Server.tick s).score.right = s.score.right + 1 ∧
      (Server.tick s).ball.x = s.ball.x + s.ball.vx) ∧
    exC2.score.right = 0 ∧
    (Server.tick (exC2)).score.right = 1 ∧
    (Server.tick (Server.tick (exC2))).score.right = 2 ∧
    (Server.tick (Server.tick (Server.tick (exC2)))).score.right = 3 ∧
    (Server.tick (Server.tick (Server.tick (Server.tick (exC2))))).score.right = 4 ∧
    (Server.tick (Server.tick (Server.tick (Server.tick (Server.tick (exC2)))))).score.right = 5 ∧
    (Server.tick (Server.tick (Server.tick (Server.tick (Server.tick (Server.tick (exC2))))))).score.right = 6 ∧
    (Server.tick (Server.tick (Server.tick (Server.tick (Server.tick (Server.tick (Server.tick (exC2)))))))).score.right = 7 ∧
    (Server.tick (Server.tick (Server.tick (Server.tick (Server.tick (Server.tick (Server.tick (exC2)))))))).status = Status.finished := by
  have hgen : ∀ s : Server.GameState, s.status = Status.playing →
      s.ball.x + s.ball.vx ≤ 0 →
      (Server.tick s).score.right = s.score.right + 1 ∧
      (Server.tick s).ball.x = s.ball.x + s.ball.vx := by
    intro s hst hx
    constructor
    · rw [Server.tick_score s hst, if_pos hx]
    · exact tickBallX s hst
  have H1 : Server.tick exC2 =
      { status := Status.playing
        ball := { x := -3, y := 50, vx := -5, vy := 0 }
        leftPaddle := { y := 240, upVotes := 0, downVotes := 0 }
        rightPaddle := { y := 240, upVotes := 0, downVotes := 0 }
        score := { left := 0, right := 1 }
        round := 2
        ballSpeed := 11/2
        players := []
        nextPlayerNumber := 1
        recentInputs := []
        pendingResets := 1 } := by
    norm_num [Server.tick, exC2, Server.calculatePaddleMovement, calcPaddleMovement,
      clamp, Server.CANVAS_HEIGHT, Server.CANVAS_WIDTH, Server.PADDLE_HEIGHT,
      Server.PADDLE_WIDTH, Server.BALL_SIZE, Server.WINNING_SCORE,
      Server.INITIAL_BALL_SPEED, Server.SPEED_INCREMENT]
  have H2 : Server.tick
      { status := Status.playing
        ball := { x := -3, y := 50, vx := -5, vy := 0 }
        leftPaddle := { y := 240, upVotes := 0, downVotes := 0 }
        rightPaddle := { y := 240, upVotes := 0, downVotes := 0 }
        score := { left := 0, right := 1 }
        round := 2
        ballSpeed := 11/2
        players := []
        nextPlayerNumber := 1
        recentInputs := []
        pendingResets := 1 } =
      { status := Status.playing
        ball := { x := -8, y := 50, vx := -5, vy := 0 }
        leftPaddle := { y := 240, upVotes := 0, downVotes := 0 }
        rightPaddle := { y := 240, upVotes := 0, downVotes := 0 }
        score := { left := 0, right := 2 }
        round := 3
        ballSpeed := 6
        players := []
        nextPlayerNumber := 1
        recentInputs := []
        pendingResets := 2 } := by
    norm_num [Server.tick, Server.calculatePaddleMovement, calcPaddleMovement,
      clamp, Server.CANVAS_HEIGHT, Server.CANVAS_WIDTH, Server.PADDLE_HEIGHT,
      Server.PADDLE_WIDTH, Server.BALL_SIZE, Server.WINNING_SCORE,
      Server.INITIAL_BALL_SPEED, Server.SPEED_INCREMENT]
  have H3 : Server.tick
      { status := Status.playing
        ball := { x := -8, y := 50, vx := -5, vy := 0 }
        leftPaddle := { y := 240, upVotes := 0, downVotes := 0 }
        rightPaddle := { y := 240, upVotes := 0, downVotes := 0 }
        score := { left := 0, right := 2 }
        round := 3
        ballSpeed := 6
        players := []
        nextPlayerNumber := 1
        recentInputs := []
        pendingResets := 2 } =
      { status := Status.playing
        ball := { x := -13, y := 50, vx := -5, vy := 0 }
        leftPaddle := { y := 240, upVotes := 0, downVotes := 0 }
        rightPaddle := { y := 240, upVotes := 0, downVotes := 0 }
        score := { left := 0, right := 3 }
        round := 4
        ballSpeed := 13/2
        players := []
        nextPlayerNumber := 1
        recentInputs := []
        pendingResets := 3 } := by
    norm_num [Server.tick, Server.calculatePaddleMovement, calcPaddleMovement,
      clamp, Server.CANVAS_HEIGHT, Server.CANVAS_WIDTH, Server.PADDLE_HEIGHT,
      Server.PADDLE_WIDTH, Server.BALL_SIZE, Server.WINNING_SCORE,
      Server.INITIAL_BALL_SPEED, Server.SPEED_INCREMENT]
  have H4 : Server.tick
      { status := Status.playing
        ball := { x := -13, y := 50, vx := -5, vy := 0 }
        leftPaddle := { y := 240, upVotes := 0, downVotes := 0 }
        rightPaddle := { y := 240, upVotes := 0, downVotes := 0 }
        score := { left := 0, right := 3 }
        round := 4
        ballSpeed := 13/2
        players := []
        nextPlayerNumber := 1
        recentInputs := []
        pendingResets := 3 } =
      { status := Status.playing
        ball := { x := -18, y := 50, vx := -5, vy := 0 }
        leftPaddle := { y := 240, upVotes := 0, downVotes := 0 }
        rightPaddle := { y := 240, upVotes := 0, downVotes := 0 }
        score := { left := 0, right := 4 }
        round := 5
        ballSpeed := 7
        players := []
        nextPlayerNumber := 1
        recentInputs := []
        pendingResets := 4 } := by
    norm_num [Server.tick, Server.calculatePaddleMovement, calcPaddleMovement,
      clamp, Server.CANVAS_HEIGHT, Server.CANVAS_WIDTH, Server.PADDLE_HEIGHT,
      Server.PADDLE_WIDTH, Server.BALL_SIZE, Server.WINNING_SCORE,
      Server.INITIAL_BALL_SPEED, Server.SPEED_INCREMENT]
  have H5 : Server.tick
      { status := Status.playing
        ball := { x := -18, y := 50, vx := -5, vy := 0 }
        leftPaddle := { y := 240, upVotes := 0, downVotes := 0 }
        rightPaddle := { y := 240, upVotes := 0, downVotes := 0 }
        score := { left := 0, right := 4 }
        round := 5
        ballSpeed := 7
        players := []
        nextPlayerNumber := 1
        recentInputs := []
        pendingResets := 4 } =
      { status := Status.playing
        ball := { x := -23, y := 50, vx := -5, vy := 0 }
        leftPaddle := { y := 240, upVotes := 0, downVotes := 0 }
        rightPaddle := { y := 240, upVotes := 0, downVotes := 0 }
        score := { left := 0, right := 5 }
        round := 6
        ballSpeed := 15/2
        players := []
        nextPlayerNumber := 1
        recentInputs := []
        pendingResets := 5 } := by
    norm_num [Server.tick, Server.calculatePaddleMovement, calcPaddleMovement,
      clamp, Server.CANVAS_HEIGHT, Server.CANVAS_WIDTH, Server.PADDLE_HEIGHT,
      Server.PADDLE_WIDTH, Server.BALL_SIZE, Server.WINNING_SCORE,
      Server.INITIAL_BALL_SPEED, Server.SPEED_INCREMENT]
  have H6 : Server.tick
      { status := Status.playing
        ball := { x := -23, y := 50, vx := -5, vy := 0 }
        leftPaddle := { y := 240, upVotes := 0, downVotes := 0 }
        rightPaddle := { y := 240, upVotes := 0, downVotes := 0 }
        score := { left := 0, right := 5 }
        round := 6
        ballSpeed := 15/2
        players := []
        nextPlayerNumber := 1
        recentInputs := []
        pendingResets := 5 } =
      { status := Status.playing
        ball := { x := -28, y := 50, vx := -5, vy := 0 }
        leftPaddle := { y := 240, upVotes := 0, downVotes := 0 }
        rightPaddle := { y := 240, upVotes := 0, downVotes := 0 }
        score := { left := 0, right := 6 }
        round := 7
        ballSpeed := 8
        players := []
        nextPlayerNumber := 1
        recentInputs := []
        pendingResets := 6 } := by
    norm_num [Server.tick, Server.calculatePaddleMovement, calcPaddleMovement,
      clamp, Server.CANVAS_HEIGHT, Server.CANVAS_WIDTH, Server.PADDLE_HEIGHT,
      Server.PADDLE_WIDTH, Server.BALL_SIZE, Server.WINNING_SCORE,
      Server.INITIAL_BALL_SPEED, Server.SPEED_INCREMENT]
  have H7 : Server.tick
      { status := Status.playing
        ball := { x := -28, y := 50, vx := -5, vy := 0 }
        leftPaddle := { y := 240, upVotes := 0, downVotes := 0 }
        rightPaddle := { y := 240, upVotes := 0, downVotes := 0 }
        score := { left := 0, right := 6 }
        round := 7
        ballSpeed := 8
        players := []
        nextPlayerNumber := 1
        recentInputs := []
        pendingResets := 6 } =
      { status := Status.finished
        ball := { x := -33, y := 50, vx := -5, vy := 0 }
        leftPaddle := { y := 240, upVotes := 0, downVotes := 0 }
        rightPaddle := { y := 240, upVotes := 0, downVotes := 0 }
        score := { left := 0, right := 7 }
        round := 8
        ballSpeed := 17/2
        players := []
        nextPlayerNumber := 1
        recentInputs := []
        pendingResets := 6 } := by
    norm_num [Server.tick, Server.calculatePaddleMovement, calcPaddleMovement,
      clamp, Server.CANVAS_HEIGHT, Server.CANVAS_WIDTH, Server.PADDLE_HEIGHT,
      Server.PADDLE_WIDTH, Server.BALL_SIZE, Server.WINNING_SCORE,
      Server.INITIAL_BALL_SPEED, Server.SPEED_INCREMENT]
  refine ⟨hgen, rfl, ?_, ?_, ?_, ?_, ?_, ?_, ?_, ?_⟩ <;>
    simp only [H1, H2, H3, H4, H5, H6, H7]

theorem claim_C9_witness :
    exC2.status = Status.playing ∧ exC2.ball.x + exC2.ball.vx ≤ 0 ∧
    (Server.tick exC2).score.right = exC2.score.right + 1 :=
  ⟨rfl, by norm_num [exC2],
   (claim_C9_repeated_goal_detection.1 exC2 rfl (by norm_num [exC2])).1⟩
